import Mathlib

/-
Verification of the Tempora scheduling/optimization engine.

Shallow embedding conventions:
  * Instants (Python `datetime`) are modelled as natural numbers counting
    minutes since a fixed origin midnight; a calendar date is `t / 1440` and
    the time of day is `t % 1440`.  All datetimes handled by the backend are
    whole minutes, and the few `second=59` bounds in the source are
    equivalent to the minute bound for minute-aligned values.
  * Times of day (work/sleep/preferred windows, parsed from "HH:MM" strings)
    are naturals `< 1440`.  String parsing itself is out of scope: the
    embedding receives already-parsed values, and the parse-error paths
    (which return failure before any scheduling) are noted where relevant.
  * Scores (Python floats built from integers, halves and exact
    twenty-fourths) are modelled as exact integers in a fixed sub-unit
    (half points for the slot-finder scorer, 1/24 points for the
    optimizer scorer), an order-isomorphic representation.
  * The SQLite store is a list of events threaded explicitly through the
    handlers.  `db.check_conflicts` compares ISO strings in SQL; since
    `datetime('now')` yields a space-separated string while stored times use
    a 'T' separator, its "future only" filter keeps exactly the events whose
    end DATE is on or after today's date; the embedding reproduces that.
  * Python `while` loops whose bound is data-dependent are written with an
    explicit fuel parameter large enough for every terminating run; safety
    invariants are proved for every fuel value.
-/

namespace Tempora

/-- User scheduling preferences (database.py `get_user_preferences`):
sleep window, work window and rounding granularity.  All four window fields
are times of day in minutes after midnight. -/
structure Prefs where
  sleep_start : Nat
  sleep_end : Nat
  work_start : Nat
  work_end : Nat
  round_to : Nat
  deriving Repr, DecidableEq

/-- The `preferred_time` dict attached to events: an `enabled` flag and
optional start/end times of day ("HH:MM" strings in the source, minutes after
midnight here).  `none` in the option fields models a missing or empty key. -/
structure PrefTime where
  enabled : Bool
  pstart : Option Nat
  pend : Option Nat
  deriving Repr, DecidableEq

/-- An event row as the backend sees it (database.py `_row_to_dict`).
`stop` is the source's `end` field (`end` is a Lean keyword).  Fields that no
modelled function reads (notes, parent_id, recurring duration/frequency
columns, earliest_start/deadline columns) are omitted. -/
structure Event where
  id : Nat
  title : String
  priority : String
  etype : String
  category : String
  start : Nat
  stop : Nat
  locked : Bool
  preferred_time : Option PrefTime
  deriving Repr, DecidableEq

/-- utils/datetime_utils.py `round_to_interval`: snap a datetime up to the
next multiple of `m` minutes within the hour (identity when already
aligned). -/
def round_to_interval (t m : Nat) : Nat :=
  if t % 60 % m == 0 then t else (t - t % 60) + (t % 60 / m + 1) * m

/-- utils/time_validators.py `is_during_sleep`: is the instant's time of day
inside the (possibly overnight) sleep window. -/
def is_during_sleep (t : Nat) (p : Prefs) : Bool :=
  let tod := t % 1440
  if p.sleep_end < p.sleep_start then
    decide (p.sleep_start ≤ tod) || decide (tod < p.sleep_end)
  else
    decide (p.sleep_start ≤ tod) && decide (tod < p.sleep_end)

/-- utils/time_validators.py `adjust_to_work_hours`: move an instant to the
same day's work start if before work, to the next day's work start if at or
after work end, else leave it unchanged. -/
def adjust_to_work_hours (t : Nat) (p : Prefs) : Nat :=
  if t % 1440 < p.work_start then (t - t % 1440) + p.work_start
  else if p.work_end ≤ t % 1440 then (t - t % 1440) + 1440 + p.work_start
  else t

/-- database.py `check_conflicts`: true when some stored event overlaps the
half-open slot `[s, e)`, restricted to events whose end has not passed.  The
SQL `end_time >= datetime('now')` comparison is a lexicographic string
comparison between a 'T'-separated and a space-separated timestamp, which
amounts to comparing the end DATE with today's date. -/
def check_conflicts (store : List Event) (now s e : Nat) (excludeId : Option Nat) : Bool :=
  store.any fun ev =>
    decide (ev.start < e) && decide (s < ev.stop) && decide (now / 1440 ≤ ev.stop / 1440)
      && (match excludeId with | none => true | some i => decide (ev.id ≠ i))

/-- Does the (possibly overnight) preferred window `[ps, pe)` contain the
time of day `tod`?  Mirrors the overnight test duplicated in
slot_finder.py `score_slot_quality` and optimizations.py. -/
def window_contains (ps pe tod : Nat) : Bool :=
  if pe ≤ ps then decide (ps ≤ tod) || decide (tod < pe)
  else decide (ps ≤ tod) && decide (tod < pe)

/-- slot_finder.py scores are floats whose values are whole or half points;
the embedding represents them exactly as integers counting HALF points, an
order-isomorphic rescaling (so the source's 50 is 100 here, 0.5 is 1,
etc.), chosen because rational arithmetic does not evaluate in the kernel. -/
def half_points (q : Int) : Int := q

/-- slot_finder.py `score_slot_quality` FACTOR 1 (mode 2 only): preferred
time matching ladder 50/35/20/10/0 points (here 100/70/40/20/0 half-points),
applied when the config has both bounds; contributes nothing when either
bound is missing. -/
def preferred_time_factor (c : PrefTime) (work_start work_end tod : Nat) : Int :=
  match c.pstart, c.pend with
  | some ps, some pe =>
    if window_contains ps pe tod then 100
    else
      let is_overnight := pe ≤ ps
      let distance : ℤ :=
        if is_overnight then
          if ps ≤ tod then min ((tod : ℤ) - pe) ((ps : ℤ) - tod)
          else min ((ps : ℤ) - tod) ((tod : ℤ) + (1440 - (pe : ℤ)))
        else
          if tod < ps then (ps : ℤ) - tod else (tod : ℤ) - pe
      if distance ≤ 60 then 70
      else if distance ≤ 120 then 40
      else if work_start ≤ tod ∧ tod < work_end then 20
      else 0
  | _, _ => 0

/-- slot_finder.py `score_slot_quality` FACTOR 2 (mode 1 only): work-hours
fit, 30/25/20 points by distance from the work-window edges, 5 outside work
(values in half-points). -/
def work_fit_factor (slot_start slot_stop work_start work_end : Nat) : Int :=
  let tod := slot_start % 1440
  if work_start ≤ tod ∧ tod < work_end then
    let day := slot_start / 1440
    let from_start : ℤ := (slot_start : ℤ) - (day * 1440 + work_start)
    let from_end : ℤ := ((day * 1440 + work_end : ℤ)) - slot_stop
    let edge := min from_start from_end
    if 60 ≤ edge then 60 else if 30 ≤ edge then 50 else 40
  else 10

/-- slot_finder.py `score_slot_quality` FACTOR 3 (mode 1 only): average gap
to the nearest event before and after the slot (999 when none), rewarded in
the bands 20/15/8/0 points (values in half-points).  The source compares
`(gap_before + gap_after) / 2` with 60/30/15; the embedding compares the sum
with 120/60/30, which is the same exact comparison. -/
def spacing_factor (slot_start slot_stop : Nat) (all_events : List Event) : Int :=
  let gaps := all_events.foldl
    (fun (g : Nat × Nat) ev =>
      let g1 := if ev.stop ≤ slot_start then min g.1 (slot_start - ev.stop) else g.1
      let g2 := if slot_stop ≤ ev.start then min g.2 (ev.start - slot_stop) else g.2
      (g1, g2))
    (999, 999)
  let double_avg : Nat := gaps.1 + gaps.2
  if 120 ≤ double_avg then 40 else if 60 ≤ double_avg then 30
  else if 30 ≤ double_avg then 16 else 0

/-- slot_finder.py `score_slot_quality` FACTOR 4 (mode 1 only): total
scheduled minutes on the slot's calendar day, rewarded 15/12/8/4 points
(values in half-points). -/
def workload_factor (slot_start : Nat) (all_events : List Event) : Int :=
  let d := slot_start / 1440
  let total : Nat := (all_events.filter (fun ev => ev.start / 1440 == d)).foldl
    (fun acc ev => acc + (ev.stop - ev.start)) 0
  if total < 180 then 30 else if total < 300 then 24 else if total < 420 then 16 else 8

/-- slot_finder.py `score_slot_quality` FACTOR 5 (mode 1 only): peak
productivity hours preference 10/7/3 points (values in half-points). -/
def time_of_day_factor (slot_start : Nat) : Int :=
  let hour := slot_start % 1440 / 60
  if hour == 10 ∨ (14 ≤ hour ∧ hour < 16) then 20
  else if hour == 9 ∨ (11 ≤ hour ∧ hour < 14) ∨ hour == 16 then 14
  else 6

/-- slot_finder.py `score_slot_quality` FACTOR 6 (both modes): proximity
tiebreaker, 2/1.5/1/0.5/0 points (here 4/3/2/1/0 half-points) by day
distance from the earliest legal start.  The day difference is signed in
Python, so it is computed in ℤ. -/
def proximity_factor (slot_start : Nat) (earliest : Option Nat) : Int :=
  match earliest with
  | none => 0
  | some es =>
    let d : ℤ := (Int.ofNat (slot_start / 1440)) - Int.ofNat (es / 1440)
    if d == 0 then 4 else if d ≤ 3 then 3 else if d ≤ 7 then 2
    else if d ≤ 14 then 1 else 0

/-- Is the scorer in preference-dominant mode (a preferred-time config is
present and enabled)? -/
def pref_mode (cfg : Option PrefTime) : Bool :=
  match cfg with
  | none => false
  | some c => c.enabled

/-- slot_finder.py `score_slot_quality`: preference-dominant mode scores only
the preferred-time ladder, general mode sums factors 2-5; both add the
proximity tiebreaker.  Values are in half-points (twice the source's float
score), an order-isomorphic exact representation.  (The `prefs` argument of
the source is unused by its body and omitted here.) -/
def score_slot_quality (slot_start slot_stop : Nat) (all_events : List Event)
    (work_start work_end : Nat) (cfg : Option PrefTime) (earliest : Option Nat) : Int :=
  (if pref_mode cfg then
    (match cfg with
     | some c => preferred_time_factor c work_start work_end (slot_start % 1440)
     | none => 0)
  else
    work_fit_factor slot_start slot_stop work_start work_end
      + spacing_factor slot_start slot_stop all_events
      + workload_factor slot_start all_events
      + time_of_day_factor slot_start)
  + proximity_factor slot_start earliest

/-- Fuel bound for the candidate-collection loop of `find_available_slot`;
large enough for every terminating run of the source loop (window spans are
at most two days at a five-minute stride, times the 50-candidate cap). -/
def slot_fuel : Nat := 100000

/-- The candidate-collection `while` loop of slot_finder.py
`find_available_slot`: scan from `cur` at the rounding stride, jumping over
sleep hours, and collect up to 50 conflict-free slots. -/
def collect_slots (store : List Event) (p : Prefs) (now start_time end_time dur : Nat) :
    Nat → Nat → List (Nat × Nat) → List (Nat × Nat)
  | 0, _, acc => acc
  | fuel + 1, cur, acc =>
    if cur + dur ≤ end_time ∧ acc.length < 50 then
      if is_during_sleep cur p then
        let w := cur - cur % 1440 + p.sleep_end
        let w' := if w < start_time then w + 1440 else w
        collect_slots store p now start_time end_time dur fuel
          (round_to_interval w' p.round_to) acc
      else if is_during_sleep (cur + dur) p then
        collect_slots store p now start_time end_time dur fuel
          (round_to_interval (adjust_to_work_hours (cur + 1440) p) p.round_to) acc
      else if check_conflicts store now cur (cur + dur) none then
        collect_slots store p now start_time end_time dur fuel (cur + p.round_to) acc
      else
        collect_slots store p now start_time end_time dur fuel (cur + p.round_to)
          (acc ++ [(cur, cur + dur)])
    else acc

/-- First element of maximal measure in encounter order.  Python stable-sorts
by score descending and takes the head; this fold reproduces exactly that
observable result. -/
def best_by (f : Nat × Nat → Int) (c : Nat × Nat) (rest : List (Nat × Nat)) : Nat × Nat :=
  rest.foldl (fun best x => if f best < f x then x else best) c

/-- The selection step of `find_available_slot`: score every candidate with
the general-quality scorer (`preferred_time_config=None`,
`earliest_start=start_time`) and pick the best. -/
def pick_best_slot (store : List Event) (work_start work_end start_time : Nat)
    (c : Nat × Nat) (rest : List (Nat × Nat)) : Nat × Nat :=
  best_by
    (fun s => score_slot_quality s.1 s.2 store work_start work_end none (some start_time))
    c rest

/-- slot_finder.py `find_available_slot`: collect up to 50 conflict-free
candidates in the window and return the best-scored one (the `interval_minutes`
parameter of the source is unused: the loop steps by the preference's
rounding granularity). -/
def find_available_slot (store : List Event) (p : Prefs) (now start_time end_time dur : Nat) :
    Option (Nat × Nat) :=
  match collect_slots store p now start_time end_time dur slot_fuel
      (round_to_interval start_time p.round_to) [] with
  | [] => none
  | [c] => some c
  | c :: rest => some (pick_best_slot store p.work_start p.work_end start_time c rest)

/-- Everything `find_available_slot` promises about a single candidate slot:
duration-exact, inside the requested window, start not during sleep, and
conflict-free against every store event whose end date has not passed. -/
def good_slot (store : List Event) (p : Prefs) (now start_time end_time dur : Nat)
    (c : Nat × Nat) : Prop :=
  c.2 = c.1 + dur ∧ start_time ≤ c.1 ∧ c.2 ≤ end_time ∧
    is_during_sleep c.1 p = false ∧ check_conflicts store now c.1 c.2 none = false

theorem round_to_interval_le (t m : Nat) (hm : 0 < m) : t ≤ round_to_interval t m := by
  unfold round_to_interval
  split
  · exact le_refl t
  · have h1 : t % 60 ≤ t := Nat.mod_le t 60
    have h2 : t % 60 < (t % 60 / m + 1) * m := by
      have h3 : t % 60 % m < m := Nat.mod_lt _ hm
      calc t % 60 = m * (t % 60 / m) + t % 60 % m := (Nat.div_add_mod _ _).symm
        _ < m * (t % 60 / m) + m := by omega
        _ = (t % 60 / m + 1) * m := by ring
    omega

theorem adjust_to_work_hours_ge (t : Nat) (p : Prefs) :
    t - t % 1440 ≤ adjust_to_work_hours t p := by
  unfold adjust_to_work_hours
  split_ifs <;> omega

theorem check_conflicts_false_sound (store : List Event) (now s e : Nat)
    (h : check_conflicts store now s e none = false) :
    ∀ ev ∈ store, now / 1440 ≤ ev.stop / 1440 → ¬(ev.start < e ∧ s < ev.stop) := by
  intro ev hev hfuture hov
  rw [check_conflicts, List.any_eq_false] at h
  have h5 := h ev hev
  have e1 : decide (ev.start < e) = true := decide_eq_true hov.1
  have e2 : decide (s < ev.stop) = true := decide_eq_true hov.2
  have e3 : decide (now / 1440 ≤ ev.stop / 1440) = true := decide_eq_true hfuture
  simp only [e1, e2, e3, Bool.true_and, Bool.and_true] at h5
  exact h5 trivial

theorem collect_slots_good (store : List Event) (p : Prefs)
    (now start_time end_time dur : Nat) (hm : 0 < p.round_to) :
    ∀ (fuel cur : Nat) (acc : List (Nat × Nat)),
      start_time ≤ cur →
      (∀ c ∈ acc, good_slot store p now start_time end_time dur c) →
      ∀ c ∈ collect_slots store p now start_time end_time dur fuel cur acc,
        good_slot store p now start_time end_time dur c := by
  intro fuel
  induction fuel with
  | zero => intro cur acc _ hacc c hc; exact hacc c hc
  | succ n ih =>
    intro cur acc hcur hacc c hc
    rw [collect_slots] at hc
    by_cases hg : cur + dur ≤ end_time ∧ acc.length < 50
    · rw [if_pos hg] at hc
      by_cases hs1 : is_during_sleep cur p
      · rw [if_pos hs1] at hc
        refine ih _ _ ?_ hacc c hc
        have hmod : cur % 1440 ≤ cur := Nat.mod_le _ _
        have hlt : cur % 1440 < 1440 := Nat.mod_lt _ (by omega)
        refine le_trans ?_ (round_to_interval_le _ _ hm)
        by_cases hw : cur - cur % 1440 + p.sleep_end < start_time
        · rw [if_pos hw]; omega
        · rw [if_neg hw]; omega
      · rw [if_neg hs1] at hc
        by_cases hs2 : is_during_sleep (cur + dur) p
        · rw [if_pos hs2] at hc
          refine ih _ _ ?_ hacc c hc
          refine le_trans ?_ (round_to_interval_le _ _ hm)
          have := adjust_to_work_hours_ge (cur + 1440) p
          have hlt : (cur + 1440) % 1440 < 1440 := Nat.mod_lt _ (by omega)
          omega
        · rw [if_neg hs2] at hc
          by_cases hc3 : check_conflicts store now cur (cur + dur) none
          · rw [if_pos hc3] at hc
            exact ih _ _ (by omega) hacc c hc
          · rw [if_neg hc3] at hc
            refine ih _ _ (by omega) ?_ c hc
            intro d hd
            rcases List.mem_append.1 hd with hd | hd
            · exact hacc d hd
            · rcases List.mem_singleton.1 hd with rfl
              refine ⟨rfl, hcur, hg.1, ?_, ?_⟩
              · exact Bool.not_eq_true _ ▸ (by simpa using hs1)
              · exact Bool.not_eq_true _ ▸ (by simpa using hc3)
    · rw [if_neg hg] at hc
      exact hacc c hc

theorem best_by_mem (f : Nat × Nat → Int) :
    ∀ (rest : List (Nat × Nat)) (c : Nat × Nat), best_by f c rest ∈ c :: rest := by
  intro rest
  induction rest with
  | nil => intro c; simp [best_by]
  | cons y ys ih =>
    intro c
    rw [best_by, List.foldl_cons]
    have h2 := ih (if f c < f y then y else c)
    rw [best_by] at h2
    rcases List.mem_cons.1 h2 with h3 | h3
    · rw [h3]
      split_ifs
      · exact List.mem_cons_of_mem _ (List.mem_cons_self _ _)
      · exact List.mem_cons_self _ _
    · exact List.mem_cons_of_mem _ (List.mem_cons_of_mem _ h3)

theorem best_by_maximal (f : Nat × Nat → Int) :
    ∀ (rest : List (Nat × Nat)) (c x : Nat × Nat), x ∈ c :: rest →
      f x ≤ f (best_by f c rest) := by
  intro rest
  induction rest with
  | nil =>
    intro c x hx
    rcases List.mem_singleton.1 hx with rfl
    simp [best_by]
  | cons y ys ih =>
    intro c x hx
    rw [best_by, List.foldl_cons]
    have hfold : List.foldl (fun best x => if f best < f x then x else best)
        (if f c < f y then y else c) ys = best_by f (if f c < f y then y else c) ys := rfl
    rw [hfold]
    have hstep : ∀ z : Nat × Nat, z = c ∨ z = y → f z ≤ f (if f c < f y then y else c) := by
      intro z hz
      by_cases h : f c < f y
      · rw [if_pos h]; rcases hz with rfl | rfl
        · exact le_of_lt h
        · exact le_refl _
      · rw [if_neg h]; rcases hz with rfl | rfl
        · exact le_refl _
        · exact le_of_not_lt h
    have hhead := ih (if f c < f y then y else c) _ (List.mem_cons_self _ _)
    rcases List.mem_cons.1 hx with rfl | hx
    · exact le_trans (hstep x (Or.inl rfl)) hhead
    · rcases List.mem_cons.1 hx with rfl | hx
      · exact le_trans (hstep x (Or.inr rfl)) hhead
      · exact ih _ x (List.mem_cons_of_mem _ hx)

theorem find_available_slot_mem_candidates (store : List Event) (p : Prefs)
    (now st en dur : Nat) (c : Nat × Nat)
    (h : find_available_slot store p now st en dur = some c) :
    c ∈ collect_slots store p now st en dur slot_fuel (round_to_interval st p.round_to) [] := by
  rw [find_available_slot] at h
  rcases hl : collect_slots store p now st en dur slot_fuel
      (round_to_interval st p.round_to) [] with _ | ⟨a, rest⟩
  · rw [hl] at h; exact absurd h (by simp)
  · rw [hl] at h
    rcases rest with _ | ⟨b, rest2⟩
    · simp only [Option.some_inj] at h; simp [h]
    · simp only [Option.some_inj] at h
      rw [← h, pick_best_slot]
      exact best_by_mem _ (b :: rest2) a

theorem find_available_slot_sound (store : List Event) (p : Prefs)
    (now st en dur : Nat) (hm : 0 < p.round_to) (c : Nat × Nat)
    (h : find_available_slot store p now st en dur = some c) :
    good_slot store p now st en dur c := by
  refine collect_slots_good store p now st en dur hm _ _ []
    (round_to_interval_le st p.round_to hm) (by simp) c
    (find_available_slot_mem_candidates store p now st en dur c h)

/-- C10: every slot `(s, e)` returned by `find_available_slot` satisfies
`e = s + duration`, `s ≥ start_time`, `e ≤ end_time`, the time of day of `s`
is not inside the user's sleep window, and `[s, e)` overlaps no stored event
that has not yet ended. -/
theorem find_available_slot_postconditions (store : List Event) (p : Prefs)
    (now st en dur s e : Nat) (hm : 0 < p.round_to)
    (h : find_available_slot store p now st en dur = some (s, e)) :
    e = s + dur ∧ st ≤ s ∧ e ≤ en ∧ is_during_sleep s p = false ∧
      ∀ ev ∈ store, now ≤ ev.stop → ¬(ev.start < e ∧ s < ev.stop) := by
  obtain ⟨h1, h2, h3, h4, h5⟩ := find_available_slot_sound store p now st en dur hm (s, e) h
  refine ⟨h1, h2, h3, h4, ?_⟩
  intro ev hev hend
  exact check_conflicts_false_sound store now s e h5 ev hev (Nat.div_le_div_right hend)

set_option maxRecDepth 100000 in
/-- Witness for C10 at a concrete input: default preferences, an empty store,
a work-hours window on day 20000; the returned slot is 10:00-11:00. -/
theorem find_available_slot_postconditions_witness :
    (28800660 : Nat) = 28800600 + 60 ∧ (28800540 : Nat) ≤ 28800600 ∧
      (28800660 : Nat) ≤ 28801080 ∧
      is_during_sleep 28800600 ⟨1380, 420, 540, 1080, 5⟩ = false ∧
      ∀ ev ∈ ([] : List Event), 28800480 ≤ ev.stop →
        ¬(ev.start < 28800660 ∧ 28800600 < ev.stop) :=
  find_available_slot_postconditions [] ⟨1380, 420, 540, 1080, 5⟩
    28800480 28800540 28801080 60 28800600 28800660 (by decide) (by decide)

/-- C8: in preference-dominant mode (config enabled with both bounds), a
candidate whose start time of day lies inside the preferred window scores at
least as much as any candidate outside it, when both get the same proximity
tiebreaker. -/
theorem preferred_window_dominance (c : PrefTime) (ps pe ws we : Nat)
    (s1 e1 s2 e2 : Nat) (store : List Event) (earliest : Option Nat)
    (hen : c.enabled = true) (hps : c.pstart = some ps) (hpe : c.pend = some pe)
    (hin : window_contains ps pe (s1 % 1440) = true)
    (hout : window_contains ps pe (s2 % 1440) = false)
    (hprox : proximity_factor s2 earliest = proximity_factor s1 earliest) :
    score_slot_quality s2 e2 store ws we (some c) earliest ≤
      score_slot_quality s1 e1 store ws we (some c) earliest := by
  have hmode : pref_mode (some c) = true := by simp [pref_mode, hen]
  have h50 : preferred_time_factor c ws we (s1 % 1440) = 100 := by
    simp only [preferred_time_factor, hps, hpe, hin, if_true]
  have hle : preferred_time_factor c ws we (s2 % 1440) ≤ 70 := by
    simp only [preferred_time_factor, hps, hpe, hout, Bool.false_eq_true, if_false]
    split_ifs <;> norm_num
  simp only [score_slot_quality, hmode, if_true, h50]
  have := hprox
  linarith

/-- Witness for C8 at a concrete input: preferred window 10:00-11:00, the
in-window start 10:10 beats the out-of-window start 11:40 on the same day. -/
theorem preferred_window_dominance_witness :
    score_slot_quality 28800700 28800760 [] 540 1080
        (some ⟨true, some 600, some 660⟩) (some 28800540) ≤
      score_slot_quality 28800610 28800670 [] 540 1080
        (some ⟨true, some 600, some 660⟩) (some 28800540) :=
  preferred_window_dominance ⟨true, some 600, some 660⟩ 600 660 540 1080
    28800610 28800670 28800700 28800760 [] (some 28800540)
    rfl rfl rfl (by decide) (by decide) (by decide)

/-- The shared gate `has_preferred_time and config.get("start") and
config.get("end")` of floating_handler.py / recurring_handler.py /
optimizations.py: the enabled flag plus both window bounds.  The source then
splits a "HH:MM - HH:MM" string with `parse_preferred_time`; here the bounds
arrive already parsed. -/
def event_pref_window (pt : Option PrefTime) : Option (Nat × Nat) :=
  match pt with
  | none => none
  | some c =>
    if c.enabled then
      match c.pstart, c.pend with
      | some ps, some pe => some (ps, pe)
      | _, _ => none
    else none

/-- The request payload of floating_handler.py `handle_floating_event`
(`data`): duration in minutes (any integer, validated by the handler),
absolute earliest start and deadline, and the preferred-time config.
Payload fields that only flow into the created row verbatim (title,
priority, category) live on the caller-provided `new_event`. -/
structure FloatData where
  duration : Int
  earliest_start : Nat
  deadline : Nat
  preferred_time : Option PrefTime
  deriving Repr, DecidableEq

/-- Result of a scheduling handler: the boolean the source returns, the
store after any `db.create_event` calls, and the spans created during the
call (observable through those calls). -/
structure SchedResult where
  ok : Bool
  store : List Event
  placed : List (Nat × Nat)
  deriving Repr, DecidableEq

/-- Stand-in for `datetime.max` in the floating handler's `min` clamps; any
bound above every instant a test exercises works, since `datetime.max` only
serves as the neutral element of `min`. -/
def top_instant : Nat := 1000000000

/-- The per-day search loop of floating_handler.py `handle_floating_event`
(preferred-time branch): on each day try the four fallback levels in order,
stop at the first level that yields a slot, score that day's slot with the
preference-dominant scorer, and accumulate up to 50 day-candidates. -/
def floating_day_loop (store : List Event) (p : Prefs) (now : Nat)
    (cfg : Option PrefTime) (es dl dur ps pe : Nat) :
    Nat → Nat → List (Int × Nat × Nat) → List (Int × Nat × Nat)
  | 0, _, cands => cands
  | steps + 1, d, cands =>
    if d ≤ dl / 1440 ∧ cands.length < 50 then
      let is_overnight := pe ≤ ps
      let day_start := max (d * 1440 + ps) (if d == es / 1440 then es else 0)
      let day_end :=
        if is_overnight then
          min ((d + 1) * 1440 + pe) (if d + 1 == dl / 1440 then dl else top_instant)
        else
          min (d * 1440 + pe) (if d == dl / 1440 then dl else top_instant)
      let slot1 := if day_start < day_end
        then find_available_slot store p now day_start day_end dur else none
      let slot2 :=
        match slot1 with
        | some s => some s
        | none =>
          let e_start := max (d * 1440 + ps - 60) (if d == es / 1440 then es else 0)
          let e_end :=
            if is_overnight then
              min ((d + 1) * 1440 + pe + 60) (if d + 1 == dl / 1440 then dl else top_instant)
            else
              min (d * 1440 + pe + 60) (if d == dl / 1440 then dl else top_instant)
          if e_start < e_end then find_available_slot store p now e_start e_end dur else none
      let slot3 :=
        match slot2 with
        | some s => some s
        | none =>
          let w_start := max (d * 1440 + p.work_start) (if d == es / 1440 then es else 0)
          let w_end := min (d * 1440 + p.work_end) (if d == dl / 1440 then dl else top_instant)
          if w_start < w_end then find_available_slot store p now w_start w_end dur else none
      let slot4 :=
        match slot3 with
        | some s => some s
        | none =>
          let f_start := max (d * 1440) (if d == es / 1440 then es else 0)
          let f_end := min (d * 1440 + 1439) (if d == dl / 1440 then dl else top_instant)
          if f_start < f_end then find_available_slot store p now f_start f_end dur else none
      match slot4 with
      | some (s, e) =>
        floating_day_loop store p now cfg es dl dur ps pe steps (d + 1)
          (cands ++ [(score_slot_quality s e store p.work_start p.work_end cfg (some es), s, e)])
      | none => floating_day_loop store p now cfg es dl dur ps pe steps (d + 1) cands
    else cands

/-- Selection over the floating handler's day-candidates: Python
stable-sorts by score descending and takes the head, i.e. the first
candidate of maximal score. -/
def floating_best : List (Int × Nat × Nat) → Option (Nat × Nat)
  | [] => none
  | c :: rest =>
    some (rest.foldl (fun best x => if best.1 < x.1 then x else best) c).2

/-- floating_handler.py `handle_floating_event`: validate, clamp
`earliest_start` to now, then either run the per-day four-level search
(preferred time configured) or a single whole-range `find_available_slot`;
on success create the event.  The `new_event` dict the route passes in is
`ev`; only its span is filled in by this handler. -/
def handle_floating_event (store : List Event) (p : Prefs) (now : Nat)
    (dat : FloatData) (ev : Event) : SchedResult :=
  if dat.duration ≤ 0 then ⟨false, store, []⟩
  else
    let dur := dat.duration.toNat
    if dat.deadline ≤ dat.earliest_start then ⟨false, store, []⟩
    else if dat.deadline < now then ⟨false, store, []⟩
    else
      let es := if dat.earliest_start < now then now else dat.earliest_start
      match event_pref_window dat.preferred_time with
      | some (ps, pe) =>
        let cands := floating_day_loop store p now dat.preferred_time es dat.deadline dur
          ps pe (dat.deadline / 1440 + 1 - es / 1440) (es / 1440) []
        match floating_best cands with
        | some (s, e) => ⟨true, store ++ [{ ev with start := s, stop := e }], [(s, e)]⟩
        | none => ⟨false, store, []⟩
      | none =>
        match find_available_slot store p now es dat.deadline dur with
        | some (s, e) => ⟨true, store ++ [{ ev with start := s, stop := e }], [(s, e)]⟩
        | none => ⟨false, store, []⟩

/-- The request payload of recurring_handler.py `handle_recurring_event`
(`data`): duration in minutes, frequency in days, start date (none models an
unparsable/missing `start_date`), event fields copied into each created
instance, and the preferred-time config. -/
structure RecurData where
  duration : Int
  frequency : Int
  start_date : Option Nat
  title : String
  priority : String
  category : String
  preferred_time : Option PrefTime
  deriving Repr, DecidableEq

/-- The instance dict recurring_handler.py builds and passes to
`db.create_event` for one occurrence: type `recurring_instance`, unlocked
(`create_event` defaults `locked` to 0), span from the found slot.  The
database id assigned on insert is irrelevant to every modelled reader, so 0
is used. -/
def recur_instance_event (dat : RecurData) (s e : Nat) : Event :=
  { id := 0, title := dat.title, priority := dat.priority,
    etype := "recurring_instance", category := dat.category,
    start := s, stop := e, locked := false, preferred_time := dat.preferred_time }

/-- The four-level fallback attempt of recurring_handler.py for a single
occurrence at `cur` (or the whole-day search when no preferred time is
configured): each level is tried only when every earlier level failed. -/
def recurring_attempt_place (store : List Event) (p : Prefs) (now : Nat)
    (dat : RecurData) (cur dur : Nat) : Option (Nat × Nat) :=
  let d := cur / 1440
  match event_pref_window dat.preferred_time with
  | some (ps, pe) =>
    let is_overnight := pe ≤ ps
    let pref_ws := d * 1440 + ps
    let pref_we := if is_overnight then (d + 1) * 1440 + pe else d * 1440 + pe
    match find_available_slot store p now pref_ws pref_we dur with
    | some s => some s
    | none =>
      match find_available_slot store p now (pref_ws - 60) (pref_we + 60) dur with
      | some s => some s
      | none =>
        match find_available_slot store p now (d * 1440 + p.work_start)
            (d * 1440 + p.work_end) dur with
        | some s => some s
        | none => find_available_slot store p now (d * 1440) (d * 1440 + 1439) dur
  | none => find_available_slot store p now (d * 1440) (d * 1440 + 1439) dur

/-- The occurrence loop of recurring_handler.py: step `cur` by `frequency`
days up to `end_date`, skip occurrences before now, commit each found slot
to the store before searching the next.  31 steps always cover the 30-day
horizon once `frequency ≥ 1` (validated by the caller), so the fuel never
runs out on a validated request. -/
def recurring_loop (p : Prefs) (now : Nat) (dat : RecurData) (dur freq end_date : Nat) :
    Nat → Nat → List Event → List (Nat × Nat) → List Event × List (Nat × Nat)
  | 0, _, store, placed => (store, placed)
  | steps + 1, cur, store, placed =>
    if cur ≤ end_date then
      if cur < now then
        recurring_loop p now dat dur freq end_date steps (cur + freq * 1440) store placed
      else
        match recurring_attempt_place store p now dat cur dur with
        | some (s, e) =>
          recurring_loop p now dat dur freq end_date steps (cur + freq * 1440)
            (store ++ [recur_instance_event dat s e]) (placed ++ [(s, e)])
        | none =>
          recurring_loop p now dat dur freq end_date steps (cur + freq * 1440) store placed
    else (store, placed)

/-- recurring_handler.py `handle_recurring_event`: validate duration and
frequency, clamp a past start date to today's midnight, then schedule
occurrences over a 30-day horizon, committing each instance before the
next.  Success iff at least one instance was placed. -/
def handle_recurring_event (store : List Event) (p : Prefs) (now : Nat)
    (dat : RecurData) : SchedResult :=
  if dat.duration ≤ 0 then ⟨false, store, []⟩
  else if dat.frequency ≤ 0 then ⟨false, store, []⟩
  else
    match dat.start_date with
    | none => ⟨false, store, []⟩
    | some sd0 =>
      let sd := if sd0 < now then now / 1440 * 1440 else sd0
      let r := recurring_loop p now dat dat.duration.toNat dat.frequency.toNat
        (sd + 43200) 31 sd store []
      ⟨!r.2.isEmpty, r.1, r.2⟩

/-- Modelled from the spec (section 4.1) for comparison with the source:
the fallback search the spec describes accumulates candidates from ALL
windows in priority order, sharing one 50-candidate cap across windows,
instead of stopping at the first window that yields a slot.  Candidate
enumeration per window reuses the program's own generator
(`collect_slots`), whose built-in cap on the shared accumulator realizes
the cross-window cap. -/
def spec_union_candidates (store : List Event) (p : Prefs) (now dur : Nat)
    (windows : List (Nat × Nat)) : List (Nat × Nat) :=
  windows.foldl
    (fun acc w =>
      collect_slots store p now w.1 w.2 dur slot_fuel (round_to_interval w.1 p.round_to) acc)
    []

/-- Modelled from the spec (section 4.1): the single maximum-score candidate
across the union of all windows' candidates, scored with the program's
scorer (ties broken by encounter order).  `earliest` is the start of the
highest-priority window. -/
def spec_union_best (store : List Event) (p : Prefs) (now dur : Nat)
    (windows : List (Nat × Nat)) (earliest : Nat) : Option (Nat × Nat) :=
  match spec_union_candidates store p now dur windows with
  | [] => none
  | c :: rest => some (pick_best_slot store p.work_start p.work_end earliest c rest)

/-- The four fallback windows recurring_handler.py builds for an occurrence
on day `d` with preferred window `(ps, pe)` (not overnight): exact, ±1 hour,
work hours, whole day. -/
def recurring_fallback_windows (p : Prefs) (d ps pe : Nat) : List (Nat × Nat) :=
  [(d * 1440 + ps, d * 1440 + pe),
   (d * 1440 + ps - 60, d * 1440 + pe + 60),
   (d * 1440 + p.work_start, d * 1440 + p.work_end),
   (d * 1440, d * 1440 + 1439)]

/-- Default preferences (database.py defaults: sleep 23:00-07:00, work
09:00-18:00, rounding 5), used by the concrete scenarios below. -/
def default_prefs : Prefs := ⟨1380, 420, 540, 1080, 5⟩

/-- C9: malformed input is rejected before any search and without creating
any event: a duration ≤ 0 fails both handlers, a deadline not strictly after
`earliest_start` fails the floating handler, a frequency ≤ 0 fails the
recurring handler; each rejection returns failure with the store unchanged
and nothing placed. -/
theorem input_validation_rejections (store : List Event) (p : Prefs) (now : Nat)
    (fd : FloatData) (rd : RecurData) (ev : Event) :
    (fd.duration ≤ 0 → handle_floating_event store p now fd ev = ⟨false, store, []⟩) ∧
    (fd.deadline ≤ fd.earliest_start →
      handle_floating_event store p now fd ev = ⟨false, store, []⟩) ∧
    (rd.duration ≤ 0 → handle_recurring_event store p now rd = ⟨false, store, []⟩) ∧
    (rd.frequency ≤ 0 → handle_recurring_event store p now rd = ⟨false, store, []⟩) := by
  refine ⟨?_, ?_, ?_, ?_⟩
  · intro h
    unfold handle_floating_event
    rw [if_pos h]
  · intro h
    unfold handle_floating_event
    by_cases h1 : fd.duration ≤ 0
    · rw [if_pos h1]
    · rw [if_neg h1, if_pos h]
  · intro h
    unfold handle_recurring_event
    rw [if_pos h]
  · intro h
    unfold handle_recurring_event
    by_cases h1 : rd.duration ≤ 0
    · rw [if_pos h1]
    · rw [if_neg h1, if_pos h]

/-- Witness for C9 at concrete inputs: a zero-duration floating request, a
deadline-before-start floating request, a zero-duration recurring request
and a zero-frequency recurring request are all rejected unchanged. -/
theorem input_validation_rejections_witness :
    (handle_floating_event [] default_prefs 28800480
        ⟨0, 28800480, 28800720, none⟩
        ⟨9, "t", "medium", "floating", "Personal", 0, 0, false, none⟩
      = ⟨false, [], []⟩) ∧
    (handle_floating_event [] default_prefs 28800480
        ⟨60, 28800720, 28800600, none⟩
        ⟨9, "t", "medium", "floating", "Personal", 0, 0, false, none⟩
      = ⟨false, [], []⟩) ∧
    (handle_recurring_event [] default_prefs 28800480
        ⟨0, 7, some 28800480, "t", "medium", "Work", none⟩ = ⟨false, [], []⟩) ∧
    (handle_recurring_event [] default_prefs 28800480
        ⟨60, 0, some 28800480, "t", "medium", "Work", none⟩ = ⟨false, [], []⟩) := by
  refine ⟨?_, ?_, ?_, ?_⟩
  · exact (input_validation_rejections [] default_prefs 28800480
      ⟨0, 28800480, 28800720, none⟩ ⟨60, 0, some 0, "t", "m", "W", none⟩
      ⟨9, "t", "medium", "floating", "Personal", 0, 0, false, none⟩).1 (by decide)
  · exact (input_validation_rejections [] default_prefs 28800480
      ⟨60, 28800720, 28800600, none⟩ ⟨60, 0, some 0, "t", "m", "W", none⟩
      ⟨9, "t", "medium", "floating", "Personal", 0, 0, false, none⟩).2.1 (by decide)
  · exact (input_validation_rejections [] default_prefs 28800480
      ⟨60, 28800720, 28800600, none⟩ ⟨0, 7, some 28800480, "t", "medium", "Work", none⟩
      ⟨9, "t", "medium", "floating", "Personal", 0, 0, false, none⟩).2.2.1 (by decide)
  · exact (input_validation_rejections [] default_prefs 28800480
      ⟨60, 28800720, 28800600, none⟩ ⟨60, 0, some 28800480, "t", "medium", "Work", none⟩
      ⟨9, "t", "medium", "floating", "Personal", 0, 0, false, none⟩).2.2.2 (by decide)

set_option maxRecDepth 100000 in
/-- C4 failing input: a floating task on day 20000 with `now` = earliest
start = 08:00, deadline 12:00, duration 30, and an ENABLED OVERNIGHT
preferred window 22:00-01:00 on an empty calendar.  Because
`next_date == deadline.date()` is false on the deadline day, the level-1
window end is not clamped to the deadline, and the handler schedules
22:00-22:30 - its own docstring requires completion before the deadline, yet
the realized span starts and ends after it. -/
theorem floating_overnight_deadline_violation :
    (handle_floating_event [] default_prefs 28800480
        ⟨30, 28800480, 28800720, some ⟨true, some 1320, some 60⟩⟩
        ⟨9, "task", "medium", "floating", "Personal", 0, 0, false,
          some ⟨true, some 1320, some 60⟩⟩).ok = true ∧
    (handle_floating_event [] default_prefs 28800480
        ⟨30, 28800480, 28800720, some ⟨true, some 1320, some 60⟩⟩
        ⟨9, "task", "medium", "floating", "Personal", 0, 0, false,
          some ⟨true, some 1320, some 60⟩⟩).placed = [(28801320, 28801350)] ∧
    (28800720 : Nat) < 28801320 := by
  refine ⟨by decide, by decide, by decide⟩

/-- The two busy mornings around the 10:00-11:00 preferred window used by
the C2 counterexample scenario (09:00-10:00 and 11:00-12:00 on day 20001). -/
def c2_store : List Event :=
  [⟨1, "a", "medium", "fixed", "Work", 28801980, 28802040, false, none⟩,
   ⟨2, "b", "medium", "fixed", "Work", 28802100, 28802160, false, none⟩]

set_option maxRecDepth 1000000 in
/-- Counterexample to C2: for the recurring occurrence on day 20001 with
preferred window 10:00-11:00 (duration 60, frequency 31, so a single
occurrence), the handler returns the exact-window slot 10:00-11:00 and never
consults the lower-priority windows, although the union of all four fallback
windows contains the candidate 14:00-15:00 with a strictly higher score -
so the returned slot is NOT the maximum-score candidate over the union of
candidates from all windows, contradicting the claim. -/
theorem fallback_search_stops_early_counterexample :
    (handle_recurring_event c2_store default_prefs 28800480
        ⟨60, 31, some 28801440, "mtg", "medium", "Work",
          some ⟨true, some 600, some 660⟩⟩).placed = [(28802040, 28802100)] ∧
    (28802280, 28802340) ∈ spec_union_candidates c2_store default_prefs 28800480 60
        (recurring_fallback_windows default_prefs 20001 600 660) ∧
    score_slot_quality 28802040 28802100 c2_store 540 1080 none (some 28802040)
      < score_slot_quality 28802280 28802340 c2_store 540 1080 none (some 28802040) ∧
    spec_union_best c2_store default_prefs 28800480 60
        (recurring_fallback_windows default_prefs 20001 600 660) 28802040
      = some (28802280, 28802340) := by
  refine ⟨by decide, by decide, by decide, by decide⟩

/-- C2 amended, part of the nearby true statement: within one window,
`find_available_slot` returns a member of its own (per-window, 50-capped)
candidate list that maximizes the general-quality score over that list. -/
theorem find_available_slot_maximal (store : List Event) (p : Prefs)
    (now st en dur : Nat) (c : Nat × Nat)
    (h : find_available_slot store p now st en dur = some c) :
    c ∈ collect_slots store p now st en dur slot_fuel (round_to_interval st p.round_to) [] ∧
      ∀ x ∈ collect_slots store p now st en dur slot_fuel (round_to_interval st p.round_to) [],
        score_slot_quality x.1 x.2 store p.work_start p.work_end none (some st) ≤
          score_slot_quality c.1 c.2 store p.work_start p.work_end none (some st) := by
  refine ⟨find_available_slot_mem_candidates store p now st en dur c h, ?_⟩
  intro x hx
  rw [find_available_slot] at h
  rcases hl : collect_slots store p now st en dur slot_fuel
      (round_to_interval st p.round_to) [] with _ | ⟨a, rest⟩
  · rw [hl] at hx; simp at hx
  · rw [hl] at h hx
    rcases rest with _ | ⟨b, rest2⟩
    · simp only [Option.some_inj] at h
      rcases List.mem_singleton.1 hx with rfl
      rw [← h]
    · simp only [Option.some_inj] at h
      rw [← h, pick_best_slot]
      exact best_by_maximal
        (fun s => score_slot_quality s.1 s.2 store p.work_start p.work_end none (some st))
        (b :: rest2) a x hx

/-- C2 amended: (1) each single-placement attempt of the recurring handler
STOPS at the first fallback window in which `find_available_slot` finds a
candidate (shown for the exact preferred window: when it succeeds, its slot
is the attempt's result, and lower-priority windows are never consulted);
(2) within the single window searched, up to 50 candidates are collected and
the returned slot is the maximum-score candidate of that window alone (ties
broken by encounter order, `find_available_slot_maximal`). -/
theorem fallback_search_first_window_wins (store : List Event) (p : Prefs)
    (now : Nat) (dat : RecurData) (cur dur ps pe : Nat) (s : Nat × Nat)
    (hw : event_pref_window dat.preferred_time = some (ps, pe))
    (h : find_available_slot store p now (cur / 1440 * 1440 + ps)
        (if pe ≤ ps then (cur / 1440 + 1) * 1440 + pe else cur / 1440 * 1440 + pe) dur
      = some s) :
    recurring_attempt_place store p now dat cur dur = some s := by
  unfold recurring_attempt_place
  rw [hw]
  simp only []
  rw [h]

/-- Witness for the amended C2 theorem: in the counterexample scenario the
exact window 10:00-11:00 yields 10:00-11:00, so the attempt returns it, and
that slot maximizes the score over the exact window's own candidate list. -/
theorem fallback_search_first_window_wins_witness :
    recurring_attempt_place c2_store default_prefs 28800480
        ⟨60, 31, some 28801440, "mtg", "medium", "Work",
          some ⟨true, some 600, some 660⟩⟩ 28801440 60 = some (28802040, 28802100) ∧
    ∀ x ∈ collect_slots c2_store default_prefs 28800480 28802040 28802100 60 slot_fuel
        (round_to_interval 28802040 default_prefs.round_to) [],
      score_slot_quality x.1 x.2 c2_store default_prefs.work_start default_prefs.work_end
          none (some 28802040) ≤
        score_slot_quality 28802040 28802100 c2_store default_prefs.work_start
          default_prefs.work_end none (some 28802040) := by
  constructor
  · exact fallback_search_first_window_wins c2_store default_prefs 28800480
      ⟨60, 31, some 28801440, "mtg", "medium", "Work", some ⟨true, some 600, some 660⟩⟩
      28801440 60 600 660 (28802040, 28802100) (by decide) (by decide)
  · intro x hx
    exact (find_available_slot_maximal c2_store default_prefs 28800480 28802040 28802100 60
      (28802040, 28802100) (by decide)).2 x hx

/-- What one placement attempt guarantees: the slot starts no earlier than
one hour before the occurrence day's midnight (the lowest of the four
fallback windows' starts), and does not overlap any store event whose end
date has not passed. -/
theorem recurring_attempt_place_sound (store : List Event) (p : Prefs) (now : Nat)
    (dat : RecurData) (cur dur : Nat) (hm : 0 < p.round_to) (s e : Nat)
    (h : recurring_attempt_place store p now dat cur dur = some (s, e)) :
    cur / 1440 * 1440 - 60 ≤ s ∧
      ∀ ev ∈ store, now / 1440 ≤ ev.stop / 1440 → ¬(ev.start < e ∧ s < ev.stop) := by
  have key : ∀ st en : Nat, cur / 1440 * 1440 - 60 ≤ st →
      find_available_slot store p now st en dur = some (s, e) →
      cur / 1440 * 1440 - 60 ≤ s ∧
        ∀ ev ∈ store, now / 1440 ≤ ev.stop / 1440 → ¬(ev.start < e ∧ s < ev.stop) := by
    intro st en hst hfind
    obtain ⟨_, h2, _, _, h5⟩ := find_available_slot_sound store p now st en dur hm (s, e) hfind
    exact ⟨le_trans hst h2, check_conflicts_false_sound store now s e h5⟩
  unfold recurring_attempt_place at h
  rcases hw : event_pref_window dat.preferred_time with _ | ⟨ps, pe⟩
  · rw [hw] at h
    exact key _ _ (by omega) h
  · rw [hw] at h
    simp only [] at h
    rcases h1 : find_available_slot store p now (cur / 1440 * 1440 + ps)
        (if pe ≤ ps then (cur / 1440 + 1) * 1440 + pe else cur / 1440 * 1440 + pe) dur
      with _ | s1
    · rw [h1] at h
      rcases h2 : find_available_slot store p now (cur / 1440 * 1440 + ps - 60)
          ((if pe ≤ ps then (cur / 1440 + 1) * 1440 + pe else cur / 1440 * 1440 + pe) + 60) dur
        with _ | s2
      · rw [h2] at h
        rcases h3 : find_available_slot store p now (cur / 1440 * 1440 + p.work_start)
            (cur / 1440 * 1440 + p.work_end) dur with _ | s3
        · rw [h3] at h
          exact key _ _ (by omega) h
        · rw [h3] at h
          simp only [Option.some_inj] at h
          exact key _ _ (by omega) (h ▸ h3)
      · rw [h2] at h
        simp only [Option.some_inj] at h
        exact key _ _ (by omega) (h ▸ h2)
    · rw [h1] at h
      simp only [Option.some_inj] at h
      exact key _ _ (by omega) (h ▸ h1)

/-- Spans overlap when each starts before the other ends (half-open
intervals, the overlap test of `check_conflicts` / `_has_no_conflicts`). -/
def no_overlap (a b : Nat × Nat) : Prop := ¬(a.1 < b.2 ∧ b.1 < a.2)

/-- Invariant of the recurring occurrence loop: every placed span whose end
date has not passed is registered in the store (so later conflict checks see
it), and every placed span that `check_conflicts` would filter out ended in
the one-hour margin before today's midnight, while the loop cursor has
already moved past today (so later windows start after it). -/
def recurring_inv (now : Nat) (store : List Event) (placed : List (Nat × Nat))
    (cur : Nat) : Prop :=
  ∀ q ∈ placed,
    (now / 1440 ≤ q.2 / 1440 → ∃ ev ∈ store, ev.start = q.1 ∧ ev.stop = q.2) ∧
    (q.2 / 1440 < now / 1440 → q.2 < now / 1440 * 1440 ∧ now / 1440 + 1 ≤ cur / 1440)

theorem recurring_loop_no_overlap (p : Prefs) (now : Nat) (dat : RecurData)
    (dur freq end_date : Nat) (hm : 0 < p.round_to) (hf : 1 ≤ freq) :
    ∀ (steps cur : Nat) (store : List Event) (placed : List (Nat × Nat)),
      placed.Pairwise no_overlap →
      recurring_inv now store placed cur →
      (recurring_loop p now dat dur freq end_date steps cur store placed).2.Pairwise
        no_overlap := by
  intro steps
  induction steps with
  | zero => intro cur store placed hpw _; exact hpw
  | succ n ih =>
    intro cur store placed hpw hinv
    rw [recurring_loop]
    by_cases hle : cur ≤ end_date
    · rw [if_pos hle]
      by_cases hpast : cur < now
      · rw [if_pos hpast]
        refine ih _ _ _ hpw ?_
        intro q hq
        refine ⟨(hinv q hq).1, ?_⟩
        intro hinvis
        have h3 := (hinv q hq).2 hinvis
        have h4 : cur / 1440 ≤ (cur + freq * 1440) / 1440 :=
          Nat.div_le_div_right (by omega)
        exact ⟨h3.1, le_trans h3.2 h4⟩
      · rw [if_neg hpast]
        have hnowcur : now ≤ cur := le_of_not_lt hpast
        rcases hplace : recurring_attempt_place store p now dat cur dur with _ | ⟨s, e⟩
        · dsimp only
          refine ih _ _ _ hpw ?_
          intro q hq
          refine ⟨(hinv q hq).1, ?_⟩
          intro hinvis
          have h3 := (hinv q hq).2 hinvis
          exact ⟨h3.1, le_trans h3.2 (Nat.div_le_div_right (by omega))⟩
        · dsimp only
          obtain ⟨hlow, hconf⟩ :=
            recurring_attempt_place_sound store p now dat cur dur hm s e hplace
          have hcurday : now / 1440 ≤ cur / 1440 := Nat.div_le_div_right hnowcur
          refine ih _ _ _ ?_ ?_
          · rw [List.pairwise_append]
            refine ⟨hpw, List.pairwise_singleton _ _, ?_⟩
            intro q hq b hb
            rcases List.mem_singleton.1 hb with rfl
            by_cases hvis : now / 1440 ≤ q.2 / 1440
            · obtain ⟨ev, hev, hs, he⟩ := (hinv q hq).1 hvis
              have := hconf ev hev (by omega)
              rw [hs, he] at this
              exact this
            · have h3 := (hinv q hq).2 (by omega)
              intro hov
              have : now / 1440 * 1440 + 1380 ≤ s := by omega
              omega
          · intro q hq
            rcases List.mem_append.1 hq with hq | hq
            · refine ⟨?_, ?_⟩
              · intro hvis
                obtain ⟨ev, hev, hseq⟩ := (hinv q hq).1 hvis
                exact ⟨ev, List.mem_append_left _ hev, hseq⟩
              · intro hinvis
                have h3 := (hinv q hq).2 hinvis
                exact ⟨h3.1, le_trans h3.2 (Nat.div_le_div_right (by omega))⟩
            · rcases List.mem_singleton.1 hq with rfl
              refine ⟨?_, ?_⟩
              · intro hvis
                exact ⟨recur_instance_event dat s e,
                  List.mem_append_right _ (List.mem_singleton.2 rfl), rfl, rfl⟩
              · intro hinvis
                constructor
                · omega
                · have : (cur + freq * 1440) / 1440 = cur / 1440 + freq := by
                    omega
                  omega
    · rw [if_neg hle]
      exact hpw

/-- C3: among the instances one `handle_recurring_event` call creates, no
two spans overlap - each committed instance becomes an obstacle for the
occurrences scheduled after it. -/
theorem recurring_instances_no_overlap (store : List Event) (p : Prefs)
    (now : Nat) (dat : RecurData) (hm : 0 < p.round_to) :
    (handle_recurring_event store p now dat).placed.Pairwise no_overlap := by
  unfold handle_recurring_event
  by_cases h1 : dat.duration ≤ 0
  · rw [if_pos h1]; exact List.Pairwise.nil
  · rw [if_neg h1]
    by_cases h2 : dat.frequency ≤ 0
    · rw [if_pos h2]; exact List.Pairwise.nil
    · rw [if_neg h2]
      rcases hsd : dat.start_date with _ | sd0
      · exact List.Pairwise.nil
      · have hf : 1 ≤ dat.frequency.toNat := by omega
        exact recurring_loop_no_overlap p now dat dat.duration.toNat dat.frequency.toNat
          _ hm hf 31 _ store [] List.Pairwise.nil (by intro q hq; simp at hq)

set_option maxRecDepth 1000000 in
/-- Witness for C3 at a concrete input: a daily 60-minute recurring event
with preferred window 10:00-11:00 starting day 20001 on an empty store; the
instances it creates are pairwise non-overlapping. -/
theorem recurring_instances_no_overlap_witness :
    (handle_recurring_event [] default_prefs 28800480
        ⟨60, 7, some 28801440, "mtg", "medium", "Work",
          some ⟨true, some 600, some 660⟩⟩).placed.Pairwise no_overlap :=
  recurring_instances_no_overlap [] default_prefs 28800480
    ⟨60, 7, some 28801440, "mtg", "medium", "Work", some ⟨true, some 600, some 660⟩⟩
    (by decide)

/-- A proposed transform returned by an optimization policy (optimizations.py
builds dicts with id/title/old span/new span/reason; the title and the
human-readable reason string are presentational and carried nowhere, so the
embedding keeps the id and the two spans). -/
structure Modification where
  id : Nat
  old_start : Nat
  old_stop : Nat
  new_start : Nat
  new_stop : Nat
  deriving Repr, DecidableEq

/-- An optimization policy's return value.  The source dict also carries
recommendations, counts and a message, all derived or presentational; the
one policy whose recommendations have structure (`reduce_meeting_load`) gets
a dedicated definition below. -/
structure OptResult where
  modifications : List Modification
  deriving Repr, DecidableEq

/-- optimizations.py `OptimizationEngine._is_past_event`: the event's start
date precedes the engine's `today` (captured at construction time). -/
def is_past_event (today : Nat) (e : Event) : Bool :=
  decide (e.start / 1440 < today)

/-- optimizations.py `OptimizationEngine._has_no_conflicts`: no event other
than `excludeId` overlaps `[s, e)`. -/
def has_no_conflicts (events : List Event) (s e : Nat) (excludeId : Option Nat) : Bool :=
  events.all fun ev =>
    (match excludeId with | some i => ev.id == i | none => false) ||
    !(decide (s < ev.stop) && decide (ev.start < e))

/-- The scan loop of optimizations.py `_find_all_available_slots`: 15-minute
stride, conflict-filtered.  Fuel 200 covers the at most 97 steps of a
whole-day scan. -/
def find_all_slots_loop (events : List Event) (dur work_end_dt : Nat)
    (excludeId : Option Nat) : Nat → Nat → List (Nat × Nat) → List (Nat × Nat)
  | 0, _, acc => acc
  | fuel + 1, cur, acc =>
    if cur + dur ≤ work_end_dt then
      if has_no_conflicts events cur (cur + dur) excludeId then
        find_all_slots_loop events dur work_end_dt excludeId fuel (cur + 15)
          (acc ++ [(cur, cur + dur)])
      else find_all_slots_loop events dur work_end_dt excludeId fuel (cur + 15) acc
    else acc

/-- optimizations.py `_find_all_available_slots`: every conflict-free slot of
the given duration between the two times of day on `target_date`. -/
def find_all_available_slots (events : List Event) (target_date dur ws_tod we_tod : Nat)
    (excludeId : Option Nat) : List (Nat × Nat) :=
  find_all_slots_loop events dur (target_date * 1440 + we_tod) excludeId 200
    (target_date * 1440 + ws_tod) []

/-- optimizations.py `OptimizationEngine._score_slot`, in units of 1/24
point (the source's floats are integers, or integers minus multiples of
5/60 and 5 points, all exact in twenty-fourths; the rescaling is
order-isomorphic).  Factor 1: time-of-day fit for the category (50/30/10
points).  Factor 2: centrality `max(0, 30 - distance_hours*5)`, where
`720 - |2*slot_center - 2*work_center|` in minutes is exactly 24 times that.
Factor 3: `max(0, 20 - nearby*5)` for events within two hours.
(The source's unused `event_priority` parameter is omitted.) -/
def score_slot (events : List Event) (p : Prefs) (slot_start slot_stop : Nat)
    (category : String) (excludeId : Option Nat) : Int :=
  let hour := slot_start % 1440 / 60
  let f1 : Int :=
    if category == "Work" || category == "Meeting" then
      if 9 ≤ hour ∧ hour ≤ 14 then 1200 else if 14 < hour ∧ hour ≤ 17 then 720 else 240
    else if category == "Personal" || category == "Recreational" then
      if 14 ≤ hour ∧ hour ≤ 20 then 1200
      else if (12 ≤ hour ∧ hour < 14) ∨ (20 < hour ∧ hour ≤ 22) then 720
      else 240
    else if category == "Meal" then
      if hour == 7 ∨ hour == 8 ∨ hour == 12 ∨ hour == 13 ∨ hour == 18 ∨ hour == 19 then 1200
      else if hour == 6 ∨ hour == 9 ∨ hour == 11 ∨ hour == 14 ∨ hour == 17 ∨ hour == 20 then 720
      else 240
    else if 9 ≤ hour ∧ hour ≤ 17 then 720 else 240
  let d := slot_start / 1440
  let ws_dt := d * 1440 + p.work_start
  let we_dt := d * 1440 + p.work_end
  let f2 : Int :=
    if ws_dt ≤ slot_start ∧ slot_stop ≤ we_dt then
      max 0 (720 - (((slot_start + slot_stop : ℤ) - (ws_dt + we_dt)).natAbs : ℤ))
    else 0
  let nearby : Nat := (events.filter fun ev =>
    !(match excludeId with | some i => ev.id == i | none => false) &&
      decide (min (((ev.start : ℤ) - slot_stop).natAbs) (((ev.stop : ℤ) - slot_start).natAbs)
        < 120)).length
  let f3 : Int := max 0 (480 - (nearby : Int) * 120)
  f1 + f2 + f3

/-- The expanded-window containment test of `_find_next_available_slot`
levels 3 and 4, which recomputes the expanded bounds with wraparound
`.time()` arithmetic: one hour before the preferred start (mod 24h) and one
hour after the preferred end (mod 24h), tested with the PREFERRED window's
overnight flag. -/
def in_expanded_34 (ps pe tod : Nat) : Bool :=
  let e3s := (ps + 1380) % 1440
  let e3e := (pe + 60) % 1440
  if pe ≤ ps then decide (e3s ≤ tod) || decide (tod < e3e)
  else decide (e3s ≤ tod) && decide (tod < e3e)

/-- First candidate of maximal score in encounter order, over the
optimizer's scored candidate lists (Python `max(..., key=score)`). -/
def best_scored (c : Int × Nat) (rest : List (Int × Nat)) : Int × Nat :=
  rest.foldl (fun best x => if best.1 < x.1 then x else best) c

/-- optimizations.py `OptimizationEngine._find_next_available_slot`: collect
candidates on `target_date` from four levels (exact preferred window +50,
expanded window ±1h +35, work hours +10, full day +0 - here 1200/840/240/0
in 1/24 points), deduplicating lower levels against the windows already
scored, and return the start of the highest-scoring candidate.  The
source's `preferred_start` parameter is ignored by its body and omitted. -/
def next_slot_candidates (events : List Event) (p : Prefs) (dur target_date : Nat)
    (ws_tod we_tod : Nat) (excludeId : Option Nat) (category : String)
    (pref_window : Option (Nat × Nat)) : List (Int × Nat) :=
  let lvl12 : List (Int × Nat) :=
    match pref_window with
    | none => []
    | some (ps, pe) =>
      let pref_slots := find_all_available_slots events target_date dur ps pe excludeId
      let c1 := pref_slots.map
        (fun sl => (score_slot events p sl.1 sl.2 category excludeId + 1200, sl.1))
      let expanded_start := if 0 < ps / 60 then ps - 60 else ps
      let expanded_end := if pe / 60 < 23 then pe + 60 else pe
      let c2 :=
        if expanded_start ≠ ps ∨ expanded_end ≠ pe then
          ((find_all_available_slots events target_date dur expanded_start expanded_end
              excludeId).filter
            (fun sl => !window_contains ps pe (sl.1 % 1440))).map
            (fun sl => (score_slot events p sl.1 sl.2 category excludeId + 840, sl.1))
        else []
      c1 ++ c2
  let work_slots := find_all_available_slots events target_date dur ws_tod we_tod excludeId
  let c3 := (work_slots.filter (fun sl =>
      match pref_window with
      | none => true
      | some (ps, pe) =>
        !(window_contains ps pe (sl.1 % 1440) || in_expanded_34 ps pe (sl.1 % 1440)))).map
    (fun sl => (score_slot events p sl.1 sl.2 category excludeId + 240, sl.1))
  let full_slots := find_all_available_slots events target_date dur 0 1439 excludeId
  let c4 := (full_slots.filter (fun sl =>
      if ws_tod ≤ sl.1 % 1440 ∧ sl.1 % 1440 < we_tod then false
      else match pref_window with
        | none => true
        | some (ps, pe) => !in_expanded_34 ps pe (sl.1 % 1440))).map
    (fun sl => (score_slot events p sl.1 sl.2 category excludeId, sl.1))
  lvl12 ++ c3 ++ c4

/-- The selection step of `_find_next_available_slot`: the start of the
highest-scoring candidate across all levels, none when no level produced a
candidate. -/
def find_next_available_slot (events : List Event) (p : Prefs) (dur target_date : Nat)
    (ws_tod we_tod : Nat) (excludeId : Option Nat) (category : String)
    (pref_window : Option (Nat × Nat)) : Option Nat :=
  match next_slot_candidates events p dur target_date ws_tod we_tod excludeId category
      pref_window with
  | [] => none
  | c :: rest => some (best_scored c rest).2

/-- Stable insertion sort on a boolean `le`: reproduces Python's stable
`sorted`/`list.sort` for the total-preorder keys used by the engine. -/
def sorted_insert (le : α → α → Bool) (x : α) : List α → List α
  | [] => [x]
  | y :: ys => if le x y then x :: y :: ys else y :: sorted_insert le x ys

/-- Stable sort as iterated insertion (rightmost elements inserted first, so
an earlier element is placed before later equal ones). -/
def stable_sort (le : α → α → Bool) (l : List α) : List α :=
  l.foldr (sorted_insert le) []

/-- Python dict-of-lists grouping with insertion-ordered keys
(`defaultdict(list)` iterated in key-first-seen order). -/
def insert_grouped [BEq κ] (k : κ) (x : α) : List (κ × List α) → List (κ × List α)
  | [] => [(k, [x])]
  | (k2, xs) :: rest =>
    if k2 == k then (k2, xs ++ [x]) :: rest else (k2, xs) :: insert_grouped k x rest

/-- Group a list by a key, preserving both key-first-seen order and element
order within each group, as Python's `defaultdict(list)` loops do. -/
def group_by_key [BEq κ] (key : α → κ) (l : List α) : List (κ × List α) :=
  l.foldl (fun acc x => insert_grouped (key x) x acc) []

/-- smart_optimize_week's sort ranks: `priority_order.get(p, 1)`. -/
def priority_rank (s : String) : Nat :=
  if s == "high" then 0 else if s == "medium" then 1 else if s == "low" then 2 else 1

/-- smart_optimize_week's sort ranks: `type_order.get(t, 2)` (note the dict
keys are `fixed`/`recurring`/`floating`, so `recurring_instance` falls to
the default 2). -/
def type_rank (s : String) : Nat :=
  if s == "fixed" then 0 else if s == "recurring" then 1 else if s == "floating" then 2 else 2

/-- smart_optimize_week's sort ranks: `category_order.get(c, 4)`. -/
def category_rank (s : String) : Nat :=
  if s == "Work" then 0 else if s == "Meeting" then 1 else if s == "Recreational" then 2
  else if s == "Meal" then 3 else if s == "Personal" then 4 else 4

/-- smart_optimize_week's sort key `(priority, type, category, original
start time)`. -/
def smart_sort_key (e : Event) : Nat × Nat × Nat × Nat :=
  (priority_rank e.priority, type_rank e.etype, category_rank e.category, e.start)

/-- Lexicographic comparison of the four-component sort key. -/
def tuple4_le (a b : Nat × Nat × Nat × Nat) : Bool :=
  if a.1 < b.1 then true else if b.1 < a.1 then false
  else if a.2.1 < b.2.1 then true else if b.2.1 < a.2.1 then false
  else if a.2.2.1 < b.2.2.1 then true else if b.2.2.1 < a.2.2.1 then false
  else decide (a.2.2.2 ≤ b.2.2.2)

/-- Total simulated minutes scheduled on day `d` (smart_optimize_week's
`daily_durations`; the `day in week_days` restriction holds at every use
site because only week days are queried). -/
def daily_duration (sim : List Event) (d : Nat) : Nat :=
  (sim.filter (fun ev => ev.start / 1440 == d)).foldl
    (fun acc ev => acc + (ev.stop - ev.start)) 0

/-- smart_optimize_week's `min(week_days, key=daily_durations)`: the first
week day of minimal simulated load. -/
def week_min_day (sim : List Event) (week_days : List Nat) : Nat :=
  match week_days with
  | [] => 0
  | d :: rest =>
    rest.foldl (fun best x => if daily_duration sim x < daily_duration sim best then x else best) d

/-- Simulation state of smart_optimize_week: the simulated schedule (seeded
with the locked events) and the modifications proposed so far. -/
structure SimState where
  sim : List Event
  mods : List Modification
  deriving Repr, DecidableEq

/-- One iteration of smart_optimize_week's scheduling loop: pick the week
day with least total simulated duration, search it with the four-level
finder against the simulation, and on success append the modification and
the simulated placement (the source's per-category `search_start` anchor is
computed but never used by `_find_next_available_slot`). -/
def smart_step (p : Prefs) (week_days : List Nat) (st : SimState) (e : Event) : SimState :=
  let dur := e.stop - e.start
  let best_day := week_min_day st.sim week_days
  match find_next_available_slot st.sim p dur best_day p.work_start p.work_end (some e.id)
      e.category (event_pref_window e.preferred_time) with
  | some ns =>
    let placed : Event :=
      { id := e.id, title := e.title, priority := e.priority, etype := e.etype,
        category := e.category, start := ns, stop := ns + dur, locked := false,
        preferred_time := none }
    { sim := st.sim ++ [placed], mods := st.mods ++ [⟨e.id, e.start, e.stop, ns, ns + dur⟩] }
  | none => st

/-- optimizations.py `smart_optimize_week`: seed a simulation with the
locked events, sort the movable (unlocked, non-past) events by
priority/type/category/original time, and greedily place each on the week
day with least total simulated duration. -/
def smart_optimize_week (events : List Event) (p : Prefs) (today : Nat) : OptResult :=
  match (events.map (fun e => e.start / 1440)).min? with
  | none => ⟨[]⟩
  | some week_start =>
    let locked_events := events.filter (fun e => e.locked)
    let moveable := events.filter (fun e => !e.locked && !is_past_event today e)
    if moveable.isEmpty then ⟨[]⟩
    else
      let week_days := (List.range 7).map (fun i => week_start + i)
      let sorted_events :=
        stable_sort (fun a b => tuple4_le (smart_sort_key a) (smart_sort_key b)) moveable
      ⟨(sorted_events.foldl (smart_step p week_days) ⟨locked_events, []⟩).mods⟩

/-- Per-category batching state of `consolidate_schedule`. -/
structure ConsState where
  day_index : Nat
  scheduled_today : Nat
  current_time : Nat
  mods : List Modification
  deriving Repr, DecidableEq

/-- One iteration of `consolidate_schedule`'s inner loop: roll to the next
week day when the per-day allotment is full or the cursor passed work end,
search the current day (conflicts are checked against the REAL events list,
not a simulation), and record a modification when the start moves by more
than one minute.  The `if day_index >= len(week_days): break` of the source
is unreachable after the modulo and is omitted. -/
def cons_roll (p : Prefs) (week_days : List Nat) (events_per_day : Nat)
    (st : ConsState) : ConsState :=
  if events_per_day ≤ st.scheduled_today ∨ p.work_end < st.current_time % 1440 then
    ⟨(st.day_index + 1) % 7, 0,
      (week_days.getD ((st.day_index + 1) % 7) 0) * 1440 + p.work_start, st.mods⟩
  else st

/-- The slot-search and bookkeeping part of `consolidate_schedule`'s inner
loop body, after the day roll. -/
def cons_step (events : List Event) (p : Prefs) (week_days : List Nat)
    (events_per_day : Nat) (st : ConsState) (e : Event) : ConsState :=
  let rolled := cons_roll p week_days events_per_day st
  let dur := e.stop - e.start
  match find_next_available_slot events p dur (week_days.getD rolled.day_index 0)
      p.work_start p.work_end (some e.id) e.category (event_pref_window e.preferred_time) with
  | some ns =>
    if ns / 1440 == week_days.getD rolled.day_index 0 then
      { day_index := rolled.day_index, scheduled_today := rolled.scheduled_today + 1,
        current_time := ns + dur + 15,
        mods := if 1 < ((ns : ℤ) - e.start).natAbs
          then rolled.mods ++ [⟨e.id, e.start, e.stop, ns, ns + dur⟩]
          else rolled.mods }
    else rolled
  | none => rolled

/-- The per-category body of `consolidate_schedule`'s outer loop: categories
with at most one event are skipped; otherwise the category's events are
re-placed in start order with an as-even-as-possible per-day allotment. -/
def cons_category_step (events : List Event) (p : Prefs) (week_days : List Nat)
    (mods : List Modification) (kv : String × List Event) : List Modification :=
  if kv.2.length ≤ 1 then mods
  else
    ((stable_sort (fun a b => decide (a.start ≤ b.start)) kv.2).foldl
      (cons_step events p week_days (max 1 (kv.2.length / 5)))
      ⟨0, 0, (week_days.getD 0 0) * 1440 + p.work_start, mods⟩).mods

/-- optimizations.py `consolidate_schedule`: group movable events by
category (insertion order), and re-place each category's events in
start-time order into as-even-as-possible per-day batches with a 15-minute
buffer after each placement. -/
def consolidate_schedule (events : List Event) (p : Prefs) (today : Nat) : OptResult :=
  let filtered := events.filter
    (fun e => !e.locked && e.title ≠ "Break" && !is_past_event today e)
  let groups := group_by_key (fun e => e.category) filtered
  match (events.map (fun e => e.start / 1440)).min? with
  | none => ⟨[]⟩
  | some week_start =>
    let week_days := (List.range 7).map (fun i => week_start + i)
    ⟨groups.foldl (cons_category_step events p week_days) []⟩

/-- One adjacent pair of `group_deep_work`'s merge loop: close a gap
strictly between 0 and 60 minutes when the combined duration stays under
240 minutes, by moving the later event to 5 minutes after the earlier one,
provided that creates no conflict.  Gaps are signed (overlapping events give
a non-positive gap and are skipped), hence the ℤ arithmetic. -/
def deep_pair_step (events : List Event) (mods : List Modification)
    (pr : Event × Event) : List Modification :=
  let gap : ℤ := (pr.2.start : ℤ) - pr.1.stop
  let combined : ℤ := ((pr.1.stop : ℤ) - pr.1.start) + ((pr.2.stop : ℤ) - pr.2.start)
  if 0 < gap ∧ gap < 60 ∧ combined < 240 then
    let new_start := pr.1.stop + 5
    let new_stop := new_start + (pr.2.stop - pr.2.start)
    if has_no_conflicts events new_start new_stop (some pr.2.id) then
      mods ++ [⟨pr.2.id, pr.2.start, pr.2.stop, new_start, new_stop⟩]
    else mods
  else mods

/-- The per-day body of `group_deep_work`: days with fewer than two Work
events are skipped; otherwise the merge loop walks adjacent pairs of the
day's events in start order. -/
def deep_day_step (events : List Event) (mods : List Modification)
    (kv : Nat × List Event) : List Modification :=
  if kv.2.length < 2 then mods
  else
    ((stable_sort (fun a b => decide (a.start ≤ b.start)) kv.2).zip
      (stable_sort (fun a b => decide (a.start ≤ b.start)) kv.2).tail).foldl
      (deep_pair_step events) mods

/-- optimizations.py `group_deep_work`: per day, walk adjacent pairs of the
day's Work events in start order and merge small gaps (see
`deep_pair_step`). -/
def group_deep_work (events : List Event) (p : Prefs) (today : Nat) : OptResult :=
  let work_events := events.filter (fun e => e.category == "Work")
  let filtered := work_events.filter
    (fun e => !e.locked && e.title ≠ "Break" && !is_past_event today e)
  let by_day := group_by_key (fun e => e.start / 1440) filtered
  ⟨by_day.foldl (deep_day_step events) []⟩

/-- The per-pair body of `add_planning_buffer`: skip locked or past pairs;
when the gap to the next meeting is in [0, 10) minutes push it to 10 minutes
after the current one, falling back to the four-level finder when that
collides. -/
def buffer_pair_mods (events : List Event) (p : Prefs) (today : Nat)
    (cur nxt : Event) : List Modification :=
  if cur.locked || nxt.locked then []
  else if is_past_event today cur || is_past_event today nxt then []
  else
    let gap : ℤ := (nxt.start : ℤ) - cur.stop
    if 0 ≤ gap ∧ gap < 10 then
      let new_start := nxt.start + (10 - gap).toNat
      let dur := nxt.stop - nxt.start
      let new_stop := new_start + dur
      if has_no_conflicts events new_start new_stop (some nxt.id) then
        [⟨nxt.id, nxt.start, nxt.stop, new_start, new_stop⟩]
      else
        match find_next_available_slot events p dur (new_start / 1440) p.work_start
            p.work_end (some nxt.id) "Meeting" (event_pref_window nxt.preferred_time) with
        | some s => [⟨nxt.id, nxt.start, nxt.stop, s, s + dur⟩]
        | none => []
    else []

/-- The `for i in range(len(meetings_sorted) - 1)` pair walk of
`add_planning_buffer`. -/
def buffer_pairs (events : List Event) (p : Prefs) (today : Nat) :
    List Event → List Modification
  | a :: b :: rest => buffer_pair_mods events p today a b ++ buffer_pairs events p today (b :: rest)
  | _ => []

/-- optimizations.py `add_planning_buffer`: walk the meetings in start order
and push apart back-to-back pairs (see `buffer_pair_mods`). -/
def add_planning_buffer (events : List Event) (p : Prefs) (today : Nat) : OptResult :=
  let meetings := events.filter (fun e => e.category == "Meeting")
  let ms := stable_sort (fun a b => decide (a.start ≤ b.start)) meetings
  if ms.length < 2 then ⟨[]⟩ else ⟨buffer_pairs events p today ms⟩

/-- optimizations.py `reduce_meeting_load` is read-only: its returned dict
always carries `modifications: []`.  Its recommendation payload is modelled
separately by `reduce_meeting_load_recommendations`. -/
def reduce_meeting_load (events : List Event) (p : Prefs) (today : Nat) : OptResult :=
  ⟨[]⟩

/-- The recommendation payload of `reduce_meeting_load`: for each day with
at least three unlocked, non-past meetings, the ids of the up-to-three
shortest ones (day, ids). -/
def reduce_meeting_load_recommendations (events : List Event) (today : Nat) :
    List (Nat × List Nat) :=
  let meetings := (events.filter (fun e => e.category == "Meeting")).filter
    (fun e => !e.locked && !is_past_event today e)
  let by_day := group_by_key (fun e => e.start / 1440) meetings
  by_day.foldl (fun recs kv =>
    if 3 ≤ kv.2.length then
      let short3 := (stable_sort
        (fun a b => decide (a.stop - a.start ≤ b.stop - b.start)) kv.2).take 3
      if 2 ≤ short3.length then recs ++ [(kv.1, short3.map (fun m => m.id))] else recs
    else recs) []

/-- The shrink loop of `add_recovery_time`: walk the long Work/Meeting
blocks longest-first, trimming up to 30 minutes from each (never below a
60-minute floor, never creating a conflict) until the deficit is met. -/
def recovery_loop (events : List Event) :
    List Event → ℤ → List Modification → List Modification
  | [], _, acc => acc
  | e :: rest, deficit, acc =>
    if deficit ≤ 0 then acc
    else
      let reduction := min 30 deficit
      let new_stop := e.stop - reduction.toNat
      if 60 ≤ (new_stop : ℤ) - e.start then
        if has_no_conflicts events e.start new_stop (some e.id) then
          recovery_loop events rest (deficit - reduction)
            (acc ++ [⟨e.id, e.start, e.stop, e.start, new_stop⟩])
        else recovery_loop events rest deficit acc
      else recovery_loop events rest deficit acc

/-- optimizations.py `add_recovery_time`: compute the recreational/personal
deficit against a 10-hour weekly target and shrink the longest unlocked,
non-past Work/Meeting blocks of at least 3 hours (see `recovery_loop`). -/
def add_recovery_time (events : List Event) (p : Prefs) (today : Nat) : OptResult :=
  let recpers := events.filter (fun e => e.category == "Recreational")
    ++ events.filter (fun e => e.category == "Personal")
  let rec_minutes : ℤ := recpers.foldl (fun acc e => acc + ((e.stop : ℤ) - e.start)) 0
  let deficit := 600 - rec_minutes
  if deficit ≤ 0 then ⟨[]⟩
  else
    let candidates := (events.filter (fun e => e.category == "Work")
        ++ events.filter (fun e => e.category == "Meeting")).filter
      (fun e => !e.locked && !is_past_event today e && 180 ≤ e.stop - e.start)
    let sorted_long := stable_sort
      (fun a b => decide (b.stop - b.start ≤ a.stop - a.start)) candidates
    ⟨recovery_loop events sorted_long deficit []⟩

/-- The per-event body of `fix_sleep_schedule`: an unlocked, non-past event
whose START lies in the sleep window is relocated via the four-level finder
on its own day, then on the following day.  The source's private
`_is_during_sleep` duplicates the utils predicate and is shared here; its
`search_start` anchor is ignored by `_find_next_available_slot` and
omitted. -/
def fix_sleep_step (events : List Event) (p : Prefs) (today : Nat)
    (mods : List Modification) (e : Event) : List Modification :=
  if e.locked || e.title == "Break" then mods
  else if is_past_event today e then mods
  else if is_during_sleep e.start p then
    let dur := e.stop - e.start
    match find_next_available_slot events p dur (e.start / 1440) p.work_start p.work_end
        (some e.id) e.category (event_pref_window e.preferred_time) with
    | some s => mods ++ [⟨e.id, e.start, e.stop, s, s + dur⟩]
    | none =>
      match find_next_available_slot events p dur (e.start / 1440 + 1) p.work_start
          p.work_end (some e.id) e.category (event_pref_window e.preferred_time) with
      | some s => mods ++ [⟨e.id, e.start, e.stop, s, s + dur⟩]
      | none => mods
  else mods

/-- optimizations.py `fix_sleep_schedule`: relocate events that start during
sleep hours (see `fix_sleep_step`). -/
def fix_sleep_schedule (events : List Event) (p : Prefs) (today : Nat) : OptResult :=
  ⟨events.foldl (fix_sleep_step events p today) []⟩

theorem sorted_insert_mem {α : Type} (le : α → α → Bool) (a : α) :
    ∀ (l : List α) (x : α), x ∈ sorted_insert le a l → x = a ∨ x ∈ l := by
  intro l
  induction l with
  | nil => intro x hx; simp [sorted_insert] at hx; exact Or.inl hx
  | cons y ys ih =>
    intro x hx
    rw [sorted_insert] at hx
    by_cases h : le a y
    · rw [if_pos h] at hx
      rcases List.mem_cons.1 hx with rfl | hx
      · exact Or.inl rfl
      · exact Or.inr hx
    · rw [if_neg h] at hx
      rcases List.mem_cons.1 hx with rfl | hx
      · exact Or.inr (List.mem_cons_self _ _)
      · rcases ih x hx with h1 | h1
        · exact Or.inl h1
        · exact Or.inr (List.mem_cons_of_mem _ h1)

theorem stable_sort_mem {α : Type} (le : α → α → Bool) :
    ∀ (l : List α) (x : α), x ∈ stable_sort le l → x ∈ l := by
  intro l
  induction l with
  | nil => intro x hx; simp [stable_sort] at hx
  | cons y ys ih =>
    intro x hx
    rw [stable_sort, List.foldr_cons] at hx
    rcases sorted_insert_mem le y _ x hx with rfl | hx
    · exact List.mem_cons_self _ _
    · exact List.mem_cons_of_mem _ (ih x hx)

theorem insert_grouped_sub {κ α : Type} [BEq κ] (k : κ) (a : α) (P : α → Prop) :
    ∀ (acc : List (κ × List α)),
      (∀ pair ∈ acc, ∀ y ∈ pair.2, P y) → P a →
      ∀ pair ∈ insert_grouped k a acc, ∀ y ∈ pair.2, P y := by
  intro acc
  induction acc with
  | nil =>
    intro _ ha pair hpair y hy
    rw [insert_grouped] at hpair
    rcases List.mem_singleton.1 hpair with rfl
    rcases List.mem_singleton.1 hy with rfl
    exact ha
  | cons kv rest ih =>
    intro hacc ha pair hpair y hy
    rcases kv with ⟨k2, xs⟩
    rw [insert_grouped] at hpair
    by_cases h : k2 == k
    · rw [if_pos h] at hpair
      rcases List.mem_cons.1 hpair with rfl | hpair
      · rcases List.mem_append.1 hy with hy | hy
        · exact hacc ⟨k2, xs⟩ (List.mem_cons_self _ _) y hy
        · rcases List.mem_singleton.1 hy with rfl; exact ha
      · exact hacc pair (List.mem_cons_of_mem _ hpair) y hy
    · rw [if_neg h] at hpair
      rcases List.mem_cons.1 hpair with rfl | hpair
      · exact hacc ⟨k2, xs⟩ (List.mem_cons_self _ _) y hy
      · exact ih (fun q hq => hacc q (List.mem_cons_of_mem _ hq)) ha pair hpair y hy

theorem group_by_key_sub {κ α : Type} [BEq κ] (key : α → κ) (P : α → Prop) :
    ∀ (l : List α) (acc : List (κ × List α)),
      (∀ pair ∈ acc, ∀ y ∈ pair.2, P y) → (∀ x ∈ l, P x) →
      ∀ pair ∈ l.foldl (fun acc x => insert_grouped (key x) x acc) acc,
        ∀ y ∈ pair.2, P y := by
  intro l
  induction l with
  | nil => intro acc hacc _ pair hpair; exact hacc pair hpair
  | cons x xs ih =>
    intro acc hacc hl pair hpair
    exact ih _ (insert_grouped_sub (key x) x P acc hacc (hl x (List.mem_cons_self _ _)))
      (fun y hy => hl y (List.mem_cons_of_mem _ hy)) pair hpair

theorem group_by_key_elements {κ α : Type} [BEq κ] (key : α → κ) (l : List α) :
    ∀ pair ∈ group_by_key key l, ∀ y ∈ pair.2, y ∈ l := by
  intro pair hpair y hy
  exact group_by_key_sub key (· ∈ l) l [] (by simp) (fun x hx => hx) pair hpair y hy

theorem best_scored_mem : ∀ (rest : List (Int × Nat)) (c : Int × Nat),
    best_scored c rest ∈ c :: rest := by
  intro rest
  induction rest with
  | nil => intro c; simp [best_scored]
  | cons y ys ih =>
    intro c
    rw [best_scored, List.foldl_cons]
    have h2 := ih (if c.1 < y.1 then y else c)
    rw [best_scored] at h2
    rcases List.mem_cons.1 h2 with h3 | h3
    · rw [h3]
      split_ifs
      · exact List.mem_cons_of_mem _ (List.mem_cons_self _ _)
      · exact List.mem_cons_self _ _
    · exact List.mem_cons_of_mem _ (List.mem_cons_of_mem _ h3)

/-- Generic origin principle for the engine's accumulation loops: when each
step only appends modifications satisfying `P x`, every modification of the
final state is inherited or has such an origin `x` in the list. -/
theorem foldl_mods_origin {σ α : Type} (step : σ → α → σ) (proj : σ → List Modification)
    (P : α → Modification → Prop)
    (h : ∀ st x m, m ∈ proj (step st x) → m ∈ proj st ∨ P x m) :
    ∀ (l : List α) (st : σ) (m : Modification),
      m ∈ proj (List.foldl step st l) → m ∈ proj st ∨ ∃ x ∈ l, P x m := by
  intro l
  induction l with
  | nil => intro st m hm; exact Or.inl hm
  | cons a as ih =>
    intro st m hm
    rw [List.foldl_cons] at hm
    rcases ih (step st a) m hm with h1 | ⟨x, hx, hP⟩
    · rcases h st a m h1 with h2 | hP
      · exact Or.inl h2
      · exact Or.inr ⟨a, List.mem_cons_self _ _, hP⟩
    · exact Or.inr ⟨x, List.mem_cons_of_mem _ hx, hP⟩

/-- With unique event ids, an id determines the event. -/
theorem nodup_id_inj : ∀ (events : List Event), (events.map Event.id).Nodup →
    ∀ a ∈ events, ∀ b ∈ events, a.id = b.id → a = b := by
  intro events
  induction events with
  | nil => intro _ a ha; simp at ha
  | cons x xs ih =>
    intro h a ha b hb hab
    rw [List.map_cons, List.nodup_cons] at h
    rcases List.mem_cons.1 ha with ha1 | ha1 <;> rcases List.mem_cons.1 hb with hb1 | hb1
    · rw [ha1, hb1]
    · exfalso; apply h.1; rw [ha1] at hab; exact List.mem_map.2 ⟨b, hb1, hab.symm⟩
    · exfalso; apply h.1; rw [hb1] at hab; exact List.mem_map.2 ⟨a, ha1, hab⟩
    · exact ih h.2 a ha1 b hb1 hab

theorem find_all_slots_loop_date (events : List Event) (dur : Nat) (target we : Nat)
    (excl : Option Nat) (hwe : we ≤ 1439) :
    ∀ (fuel cur : Nat) (acc : List (Nat × Nat)), target * 1440 ≤ cur →
      (∀ c ∈ acc, c.1 / 1440 = target) →
      ∀ c ∈ find_all_slots_loop events dur (target * 1440 + we) excl fuel cur acc,
        c.1 / 1440 = target := by
  intro fuel
  induction fuel with
  | zero => intro cur acc _ hacc c hc; exact hacc c hc
  | succ n ih =>
    intro cur acc hcur hacc c hc
    rw [find_all_slots_loop] at hc
    by_cases hg : cur + dur ≤ target * 1440 + we
    · rw [if_pos hg] at hc
      by_cases hcf : has_no_conflicts events cur (cur + dur) excl
      · rw [if_pos hcf] at hc
        refine ih _ _ (by omega) ?_ c hc
        intro d hd
        rcases List.mem_append.1 hd with hd | hd
        · exact hacc d hd
        · rcases List.mem_singleton.1 hd with rfl
          simp only []
          omega
      · rw [if_neg hcf] at hc
        exact ih _ _ (by omega) hacc c hc
    · rw [if_neg hg] at hc
      exact hacc c hc

theorem find_all_available_slots_date (events : List Event) (target dur ws we : Nat)
    (excl : Option Nat) (hwe : we ≤ 1439) :
    ∀ c ∈ find_all_available_slots events target dur ws we excl, c.1 / 1440 = target := by
  intro c hc
  exact find_all_slots_loop_date events dur target we excl hwe 200 (target * 1440 + ws) []
    (by omega) (by simp) c hc

theorem next_slot_candidates_date (events : List Event) (p : Prefs) (dur target : Nat)
    (ws we : Nat) (excl : Option Nat) (cat : String) (prefw : Option (Nat × Nat))
    (hwe : we ≤ 1439) (hpe : ∀ ps pe, prefw = some (ps, pe) → pe ≤ 1439) :
    ∀ x ∈ next_slot_candidates events p dur target ws we excl cat prefw,
      x.2 / 1440 = target := by
  intro x hx
  unfold next_slot_candidates at hx
  rcases List.mem_append.1 hx with hx | hx
  · rcases List.mem_append.1 hx with hx | hx
    · rcases hw : prefw with _ | ⟨ps, pe⟩
      · rw [hw] at hx; simp at hx
      · rw [hw] at hx
        simp only [] at hx
        rcases List.mem_append.1 hx with hx | hx
        · obtain ⟨sl, hsl, heq⟩ := List.mem_map.1 hx
          have := find_all_available_slots_date events target dur ps pe excl
            (hpe ps pe hw) sl hsl
          rw [← heq] at *
          exact this
        · by_cases hexp : ((if 0 < ps / 60 then ps - 60 else ps) ≠ ps ∨
              (if pe / 60 < 23 then pe + 60 else pe) ≠ pe)
          · rw [if_pos hexp] at hx
            obtain ⟨sl, hsl, heq⟩ := List.mem_map.1 hx
            have hsl2 := List.mem_filter.1 hsl
            have hb : (if pe / 60 < 23 then pe + 60 else pe) ≤ 1439 := by
              have := hpe ps pe hw
              split_ifs <;> omega
            have := find_all_available_slots_date events target dur
              (if 0 < ps / 60 then ps - 60 else ps) (if pe / 60 < 23 then pe + 60 else pe)
              excl hb sl hsl2.1
            rw [← heq] at *
            exact this
          · rw [if_neg hexp] at hx
            simp at hx
    · obtain ⟨sl, hsl, heq⟩ := List.mem_map.1 hx
      have hsl2 := List.mem_filter.1 hsl
      have := find_all_available_slots_date events target dur ws we excl hwe sl hsl2.1
      rw [← heq] at *
      exact this
  · obtain ⟨sl, hsl, heq⟩ := List.mem_map.1 hx
    have hsl2 := List.mem_filter.1 hsl
    have := find_all_available_slots_date events target dur 0 1439 excl (by omega) sl hsl2.1
    rw [← heq] at *
    exact this

/-- Every slot `_find_next_available_slot` returns lies on the requested
target date (all four fallback levels search windows inside that day). -/
theorem find_next_available_slot_on_date (events : List Event) (p : Prefs)
    (dur target ws we : Nat) (excl : Option Nat) (cat : String)
    (prefw : Option (Nat × Nat)) (t : Nat)
    (hwe : we ≤ 1439) (hpe : ∀ ps pe, prefw = some (ps, pe) → pe ≤ 1439)
    (h : find_next_available_slot events p dur target ws we excl cat prefw = some t) :
    t / 1440 = target := by
  unfold find_next_available_slot at h
  rcases hl : next_slot_candidates events p dur target ws we excl cat prefw with _ | ⟨c, rest⟩
  · rw [hl] at h; exact absurd h (by simp)
  · rw [hl] at h
    simp only [Option.some_inj] at h
    have hmem : best_scored c rest ∈ c :: rest := best_scored_mem rest c
    rw [← hl] at hmem
    have := next_slot_candidates_date events p dur target ws we excl cat prefw hwe hpe
      (best_scored c rest) hmem
    rw [h] at this
    exact this

theorem mem_of_mem_tail {α : Type} {l : List α} {x : α} (h : x ∈ l.tail) : x ∈ l := by
  cases l with
  | nil => simp at h
  | cons a as => exact List.mem_cons_of_mem _ h

theorem moveable_filter_props (events : List Event) (today : Nat) (x : Event)
    (hx : x ∈ events.filter (fun e => !e.locked && !is_past_event today e)) :
    x ∈ events ∧ x.locked = false ∧ today ≤ x.start / 1440 := by
  have h := List.mem_filter.1 hx
  have h2 := h.2
  simp only [Bool.and_eq_true, Bool.not_eq_true'] at h2
  refine ⟨h.1, h2.1, ?_⟩
  have h3 := h2.2
  simp only [is_past_event, decide_eq_false_iff_not] at h3
  omega

theorem break_filter_props (base : List Event) (today : Nat) (x : Event)
    (hx : x ∈ base.filter (fun e => !e.locked && e.title ≠ "Break" && !is_past_event today e)) :
    x ∈ base ∧ x.locked = false ∧ today ≤ x.start / 1440 := by
  have h := List.mem_filter.1 hx
  have h2 := h.2
  simp only [Bool.and_eq_true, Bool.not_eq_true', decide_eq_true_eq] at h2
  refine ⟨h.1, h2.1.1, ?_⟩
  have h3 := h2.2
  simp only [is_past_event, decide_eq_false_iff_not] at h3
  omega

/-- A modification originating from a movable (unlocked, non-past) event of
the input. -/
def movable_origin (events : List Event) (today : Nat) (m : Modification) : Prop :=
  ∃ e ∈ events, m.id = e.id ∧ e.locked = false ∧ today ≤ e.start / 1440

theorem smart_step_mods_origin (p : Prefs) (week_days : List Nat) (st : SimState)
    (x : Event) (m : Modification) (hm : m ∈ (smart_step p week_days st x).mods) :
    m ∈ st.mods ∨ m.id = x.id := by
  unfold smart_step at hm
  simp only [] at hm
  rcases hfind : find_next_available_slot st.sim p (x.stop - x.start)
      (week_min_day st.sim week_days) p.work_start p.work_end (some x.id)
      x.category (event_pref_window x.preferred_time) with _ | ns
  · rw [hfind] at hm
    exact Or.inl hm
  · rw [hfind] at hm
    simp only [] at hm
    rcases List.mem_append.1 hm with hm | hm
    · exact Or.inl hm
    · rcases List.mem_singleton.1 hm with rfl
      exact Or.inr rfl

theorem smart_optimize_week_origin (events : List Event) (p : Prefs) (today : Nat) :
    ∀ m ∈ (smart_optimize_week events p today).modifications,
      movable_origin events today m := by
  intro m hm
  unfold smart_optimize_week at hm
  rcases hmin : (events.map (fun e => e.start / 1440)).min? with _ | ws
  · rw [hmin] at hm; simp at hm
  · rw [hmin] at hm
    simp only [] at hm
    by_cases hmv : (events.filter (fun e => !e.locked && !is_past_event today e)).isEmpty
    · rw [if_pos hmv] at hm; simp at hm
    · rw [if_neg hmv] at hm
      rcases foldl_mods_origin (smart_step p ((List.range 7).map (fun i => ws + i)))
          SimState.mods (fun x m => m.id = x.id)
          (fun st x m2 hm2 => smart_step_mods_origin p _ st x m2 hm2)
          _ _ m hm with h1 | ⟨x, hx, hP⟩
      · simp at h1
      · have hx2 := stable_sort_mem _ _ x hx
        obtain ⟨hxe, hxl, hxp⟩ := moveable_filter_props events today x hx2
        exact ⟨x, hxe, hP, hxl, hxp⟩

theorem cons_roll_mods (p : Prefs) (week_days : List Nat) (events_per_day : Nat)
    (st : ConsState) : (cons_roll p week_days events_per_day st).mods = st.mods := by
  unfold cons_roll
  split_ifs <;> rfl

theorem cons_step_mods_origin (events : List Event) (p : Prefs) (week_days : List Nat)
    (events_per_day : Nat) (st : ConsState) (x : Event) (m : Modification)
    (hm : m ∈ (cons_step events p week_days events_per_day st x).mods) :
    m ∈ st.mods ∨ m.id = x.id := by
  unfold cons_step at hm
  simp only [] at hm
  rcases hfind : find_next_available_slot events p (x.stop - x.start)
      (week_days.getD (cons_roll p week_days events_per_day st).day_index 0)
      p.work_start p.work_end (some x.id) x.category (event_pref_window x.preferred_time)
    with _ | ns
  · rw [hfind] at hm
    rw [cons_roll_mods] at hm
    exact Or.inl hm
  · rw [hfind] at hm
    simp only [] at hm
    by_cases hdate : (ns / 1440 == week_days.getD (cons_roll p week_days events_per_day st).day_index 0)
    · rw [if_pos hdate] at hm
      simp only [] at hm
      by_cases hmoved : 1 < ((ns : ℤ) - x.start).natAbs
      · rw [if_pos hmoved] at hm
        rcases List.mem_append.1 hm with hm | hm
        · rw [cons_roll_mods] at hm; exact Or.inl hm
        · rcases List.mem_singleton.1 hm with rfl
          exact Or.inr rfl
      · rw [if_neg hmoved] at hm
        rw [cons_roll_mods] at hm
        exact Or.inl hm
    · rw [if_neg hdate] at hm
      rw [cons_roll_mods] at hm
      exact Or.inl hm

theorem cons_category_step_origin (events : List Event) (p : Prefs)
    (week_days : List Nat) (mods : List Modification) (kv : String × List Event)
    (m : Modification) (hm : m ∈ cons_category_step events p week_days mods kv) :
    m ∈ mods ∨ ∃ x ∈ kv.2, m.id = x.id := by
  unfold cons_category_step at hm
  by_cases hlen : kv.2.length ≤ 1
  · rw [if_pos hlen] at hm
    exact Or.inl hm
  · rw [if_neg hlen] at hm
    rcases foldl_mods_origin
        (cons_step events p week_days (max 1 (kv.2.length / 5)))
        ConsState.mods (fun (x : Event) (m : Modification) => m.id = x.id)
        (fun st x m3 hm3 => cons_step_mods_origin events p week_days _ st x m3 hm3)
        _ _ m hm with h2 | ⟨x, hx, hP⟩
    · exact Or.inl h2
    · exact Or.inr ⟨x, stable_sort_mem _ _ x hx, hP⟩

theorem consolidate_schedule_origin (events : List Event) (p : Prefs) (today : Nat) :
    ∀ m ∈ (consolidate_schedule events p today).modifications,
      movable_origin events today m := by
  intro m hm
  unfold consolidate_schedule at hm
  rcases hmin : (events.map (fun e => e.start / 1440)).min? with _ | ws
  · rw [hmin] at hm; simp at hm
  · rw [hmin] at hm
    simp only [] at hm
    rcases foldl_mods_origin
        (cons_category_step events p ((List.range 7).map (fun i => ws + i)))
        (fun (l : List Modification) => l)
        (fun (kv : String × List Event) (m : Modification) => ∃ x ∈ kv.2, m.id = x.id)
        (fun mods kv m2 hm2 => cons_category_step_origin events p _ mods kv m2 hm2)
        _ _ m hm with h1 | ⟨kv, hkv, x, hx, hP⟩
    · simp at h1
    · have hxf := group_by_key_elements (fun e => e.category)
        (events.filter (fun e => !e.locked && e.title ≠ "Break" && !is_past_event today e))
        kv hkv x hx
      obtain ⟨hxe, hxl, hxp⟩ := break_filter_props events today x hxf
      exact ⟨x, hxe, hP, hxl, hxp⟩

theorem deep_pair_step_origin (events : List Event) (mods : List Modification)
    (pr : Event × Event) (m : Modification) (hm : m ∈ deep_pair_step events mods pr) :
    m ∈ mods ∨
      (0 < (pr.2.start : ℤ) - pr.1.stop ∧ (pr.2.start : ℤ) - pr.1.stop < 60 ∧
        ((pr.1.stop : ℤ) - pr.1.start) + ((pr.2.stop : ℤ) - pr.2.start) < 240 ∧
        m = ⟨pr.2.id, pr.2.start, pr.2.stop, pr.1.stop + 5,
          pr.1.stop + 5 + (pr.2.stop - pr.2.start)⟩) := by
  unfold deep_pair_step at hm
  simp only [] at hm
  by_cases hguard : (0 < (pr.2.start : ℤ) - pr.1.stop ∧ (pr.2.start : ℤ) - pr.1.stop < 60 ∧
      ((pr.1.stop : ℤ) - pr.1.start) + ((pr.2.stop : ℤ) - pr.2.start) < 240)
  · rw [if_pos hguard] at hm
    by_cases hconf : has_no_conflicts events (pr.1.stop + 5)
        (pr.1.stop + 5 + (pr.2.stop - pr.2.start)) (some pr.2.id)
    · rw [if_pos hconf] at hm
      rcases List.mem_append.1 hm with hm | hm
      · exact Or.inl hm
      · rcases List.mem_singleton.1 hm with rfl
        exact Or.inr ⟨hguard.1, hguard.2.1, hguard.2.2, rfl⟩
    · rw [if_neg hconf] at hm
      exact Or.inl hm
  · rw [if_neg hguard] at hm
    exact Or.inl hm

theorem deep_day_step_origin (events : List Event) (mods : List Modification)
    (kv : Nat × List Event) (m : Modification)
    (hm : m ∈ deep_day_step events mods kv) :
    m ∈ mods ∨ ∃ c n : Event, c ∈ kv.2 ∧ n ∈ kv.2 ∧
      0 < (n.start : ℤ) - c.stop ∧ (n.start : ℤ) - c.stop < 60 ∧
      ((c.stop : ℤ) - c.start) + ((n.stop : ℤ) - n.start) < 240 ∧
      m = ⟨n.id, n.start, n.stop, c.stop + 5, c.stop + 5 + (n.stop - n.start)⟩ := by
  unfold deep_day_step at hm
  by_cases hlen : kv.2.length < 2
  · rw [if_pos hlen] at hm
    exact Or.inl hm
  · rw [if_neg hlen] at hm
    rcases foldl_mods_origin (deep_pair_step events)
        (fun (l : List Modification) => l)
        (fun (pr : Event × Event) (m : Modification) =>
          0 < (pr.2.start : ℤ) - pr.1.stop ∧ (pr.2.start : ℤ) - pr.1.stop < 60 ∧
          ((pr.1.stop : ℤ) - pr.1.start) + ((pr.2.stop : ℤ) - pr.2.start) < 240 ∧
          m = ⟨pr.2.id, pr.2.start, pr.2.stop, pr.1.stop + 5,
            pr.1.stop + 5 + (pr.2.stop - pr.2.start)⟩)
        (fun st pr m3 hm3 => deep_pair_step_origin events st pr m3 hm3)
        _ _ m hm with h2 | ⟨pr, hpr, hP⟩
    · exact Or.inl h2
    · have hz := List.of_mem_zip hpr
      exact Or.inr ⟨pr.1, pr.2, stable_sort_mem _ _ _ hz.1,
        stable_sort_mem _ _ _ (mem_of_mem_tail hz.2), hP.1, hP.2.1, hP.2.2.1, hP.2.2.2⟩

theorem group_deep_work_origin (events : List Event) (p : Prefs) (today : Nat) :
    ∀ m ∈ (group_deep_work events p today).modifications,
      ∃ c n : Event, c ∈ events ∧ n ∈ events ∧ n.locked = false ∧
        today ≤ n.start / 1440 ∧
        0 < (n.start : ℤ) - c.stop ∧ (n.start : ℤ) - c.stop < 60 ∧
        ((c.stop : ℤ) - c.start) + ((n.stop : ℤ) - n.start) < 240 ∧
        m = ⟨n.id, n.start, n.stop, c.stop + 5, c.stop + 5 + (n.stop - n.start)⟩ := by
  intro m hm
  unfold group_deep_work at hm
  simp only [] at hm
  rcases foldl_mods_origin (deep_day_step events)
      (fun (l : List Modification) => l)
      (fun (kv : Nat × List Event) (m : Modification) =>
        ∃ c n : Event, c ∈ kv.2 ∧ n ∈ kv.2 ∧
        0 < (n.start : ℤ) - c.stop ∧ (n.start : ℤ) - c.stop < 60 ∧
        ((c.stop : ℤ) - c.start) + ((n.stop : ℤ) - n.start) < 240 ∧
        m = ⟨n.id, n.start, n.stop, c.stop + 5, c.stop + 5 + (n.stop - n.start)⟩)
      (fun mods kv m2 hm2 => deep_day_step_origin events mods kv m2 hm2)
      _ _ m hm with h1 | ⟨kv, hkv, c, n, hc, hn, hrest⟩
  · simp at h1
  · have hfiltered := group_by_key_elements (fun e => e.start / 1440)
      ((events.filter (fun e => e.category == "Work")).filter
        (fun e => !e.locked && e.title ≠ "Break" && !is_past_event today e)) kv hkv
    obtain ⟨hce, _, _⟩ := break_filter_props _ today c (hfiltered c hc)
    obtain ⟨hne, hnl, hnp⟩ := break_filter_props _ today n (hfiltered n hn)
    exact ⟨c, n, (List.mem_filter.1 hce).1, (List.mem_filter.1 hne).1, hnl, hnp,
      hrest.1, hrest.2.1, hrest.2.2.1, hrest.2.2.2⟩

theorem buffer_pair_mods_props (events : List Event) (p : Prefs) (today : Nat)
    (cur nxt : Event) (m : Modification) (hm : m ∈ buffer_pair_mods events p today cur nxt) :
    nxt.locked = false ∧ today ≤ nxt.start / 1440 ∧ m.id = nxt.id := by
  unfold buffer_pair_mods at hm
  by_cases h1 : (cur.locked || nxt.locked : Bool)
  · rw [if_pos h1] at hm; simp at hm
  · rw [if_neg h1] at hm
    by_cases h2 : (is_past_event today cur || is_past_event today nxt : Bool)
    · rw [if_pos h2] at hm; simp at hm
    · rw [if_neg h2] at hm
      simp only [Bool.or_eq_true, not_or, Bool.not_eq_true] at h1 h2
      have hnl : nxt.locked = false := h1.2
      have hnp : today ≤ nxt.start / 1440 := by
        have := h2.2
        simp only [is_past_event, decide_eq_false_iff_not] at this
        omega
      refine ⟨hnl, hnp, ?_⟩
      simp only [] at hm
      by_cases h3 : (0 ≤ (nxt.start : ℤ) - cur.stop ∧ (nxt.start : ℤ) - cur.stop < 10)
      · rw [if_pos h3] at hm
        by_cases h4 : has_no_conflicts events
            (nxt.start + ((10 : ℤ) - ((nxt.start : ℤ) - cur.stop)).toNat)
            (nxt.start + ((10 : ℤ) - ((nxt.start : ℤ) - cur.stop)).toNat + (nxt.stop - nxt.start))
            (some nxt.id)
        · rw [if_pos h4] at hm
          rcases List.mem_singleton.1 hm with rfl
          rfl
        · rw [if_neg h4] at hm
          rcases hfind : find_next_available_slot events p (nxt.stop - nxt.start)
              ((nxt.start + ((10 : ℤ) - ((nxt.start : ℤ) - cur.stop)).toNat) / 1440)
              p.work_start p.work_end (some nxt.id) "Meeting"
              (event_pref_window nxt.preferred_time) with _ | s
          · rw [hfind] at hm; simp at hm
          · rw [hfind] at hm
            rcases List.mem_singleton.1 hm with rfl
            rfl
      · rw [if_neg h3] at hm; simp at hm

theorem buffer_pairs_origin (events : List Event) (p : Prefs) (today : Nat) :
    ∀ (l : List Event) (m : Modification), m ∈ buffer_pairs events p today l →
      ∃ b ∈ l, b.locked = false ∧ today ≤ b.start / 1440 ∧ m.id = b.id := by
  intro l
  induction l with
  | nil => intro m hm; simp [buffer_pairs] at hm
  | cons a tl ih =>
    intro m hm
    cases tl with
    | nil => simp [buffer_pairs] at hm
    | cons b rest =>
      rw [buffer_pairs] at hm
      rcases List.mem_append.1 hm with hm | hm
      · obtain ⟨hnl, hnp, hid⟩ := buffer_pair_mods_props events p today a b m hm
        exact ⟨b, List.mem_cons_of_mem _ (List.mem_cons_self _ _), hnl, hnp, hid⟩
      · obtain ⟨x, hx, hrest⟩ := ih m hm
        exact ⟨x, List.mem_cons_of_mem _ hx, hrest⟩

theorem add_planning_buffer_origin (events : List Event) (p : Prefs) (today : Nat) :
    ∀ m ∈ (add_planning_buffer events p today).modifications,
      movable_origin events today m := by
  intro m hm
  unfold add_planning_buffer at hm
  simp only [] at hm
  by_cases hlen : (stable_sort (fun a b => decide (a.start ≤ b.start))
      (events.filter (fun e => e.category == "Meeting"))).length < 2
  · rw [if_pos hlen] at hm; simp at hm
  · rw [if_neg hlen] at hm
    obtain ⟨b, hb, hnl, hnp, hid⟩ := buffer_pairs_origin events p today _ m hm
    have hb2 := stable_sort_mem _ _ b hb
    exact ⟨b, (List.mem_filter.1 hb2).1, hid, hnl, hnp⟩

theorem recovery_loop_origin (events : List Event) :
    ∀ (l : List Event) (deficit : ℤ) (acc : List Modification) (m : Modification),
      m ∈ recovery_loop events l deficit acc →
      m ∈ acc ∨ ∃ e ∈ l, m.id = e.id := by
  intro l
  induction l with
  | nil => intro deficit acc m hm; rw [recovery_loop] at hm; exact Or.inl hm
  | cons e rest ih =>
    intro deficit acc m hm
    rw [recovery_loop] at hm
    by_cases h1 : deficit ≤ 0
    · rw [if_pos h1] at hm; exact Or.inl hm
    · rw [if_neg h1] at hm
      simp only [] at hm
      by_cases h2 : (60 : ℤ) ≤ ((e.stop - (min 30 deficit).toNat : Nat) : ℤ) - e.start
      · rw [if_pos h2] at hm
        by_cases h3 : has_no_conflicts events e.start (e.stop - (min 30 deficit).toNat) (some e.id)
        · rw [if_pos h3] at hm
          rcases ih _ _ m hm with h4 | ⟨x, hx, hid⟩
          · rcases List.mem_append.1 h4 with h4 | h4
            · exact Or.inl h4
            · rcases List.mem_singleton.1 h4 with rfl
              exact Or.inr ⟨e, List.mem_cons_self _ _, rfl⟩
          · exact Or.inr ⟨x, List.mem_cons_of_mem _ hx, hid⟩
        · rw [if_neg h3] at hm
          rcases ih _ _ m hm with h4 | ⟨x, hx, hid⟩
          · exact Or.inl h4
          · exact Or.inr ⟨x, List.mem_cons_of_mem _ hx, hid⟩
      · rw [if_neg h2] at hm
        rcases ih _ _ m hm with h4 | ⟨x, hx, hid⟩
        · exact Or.inl h4
        · exact Or.inr ⟨x, List.mem_cons_of_mem _ hx, hid⟩

theorem add_recovery_time_origin (events : List Event) (p : Prefs) (today : Nat) :
    ∀ m ∈ (add_recovery_time events p today).modifications,
      movable_origin events today m := by
  intro m hm
  unfold add_recovery_time at hm
  simp only [] at hm
  by_cases h1 : (600 : ℤ) - ((events.filter (fun e => e.category == "Recreational")
      ++ events.filter (fun e => e.category == "Personal")).foldl
        (fun acc e => acc + ((e.stop : ℤ) - e.start)) 0) ≤ 0
  · rw [if_pos h1] at hm; simp at hm
  · rw [if_neg h1] at hm
    rcases recovery_loop_origin events _ _ _ m hm with h2 | ⟨x, hx, hid⟩
    · simp at h2
    · have hx2 := stable_sort_mem _ _ x hx
      have hx3 := List.mem_filter.1 hx2
      have hx4 := hx3.2
      simp only [Bool.and_eq_true, Bool.not_eq_true'] at hx4
      have hx5 : x ∈ events := by
        rcases List.mem_append.1 hx3.1 with h | h
        · exact (List.mem_filter.1 h).1
        · exact (List.mem_filter.1 h).1
      have hx6 : today ≤ x.start / 1440 := by
        have := hx4.1.2
        simp only [is_past_event, decide_eq_false_iff_not] at this
        omega
      exact ⟨x, hx5, hid, hx4.1.1, hx6⟩

theorem fix_sleep_step_origin (events : List Event) (p : Prefs) (today : Nat)
    (mods : List Modification) (e : Event) (m : Modification)
    (hm : m ∈ fix_sleep_step events p today mods e) :
    m ∈ mods ∨ (m.id = e.id ∧ e.locked = false ∧ today ≤ e.start / 1440 ∧
      is_during_sleep e.start p = true) := by
  unfold fix_sleep_step at hm
  by_cases h1 : (e.locked || e.title == "Break" : Bool)
  · rw [if_pos h1] at hm; exact Or.inl hm
  · rw [if_neg h1] at hm
    by_cases h2 : is_past_event today e
    · rw [if_pos h2] at hm; exact Or.inl hm
    · rw [if_neg h2] at hm
      by_cases h3 : is_during_sleep e.start p
      · rw [if_pos h3] at hm
        simp only [Bool.or_eq_true, not_or, Bool.not_eq_true] at h1
        have hnp : today ≤ e.start / 1440 := by
          simp only [Bool.not_eq_true, is_past_event, decide_eq_false_iff_not] at h2
          omega
        simp only [] at hm
        rcases hf1 : find_next_available_slot events p (e.stop - e.start) (e.start / 1440)
            p.work_start p.work_end (some e.id) e.category
            (event_pref_window e.preferred_time) with _ | s
        · rw [hf1] at hm
          rcases hf2 : find_next_available_slot events p (e.stop - e.start)
              (e.start / 1440 + 1) p.work_start p.work_end (some e.id) e.category
              (event_pref_window e.preferred_time) with _ | s2
          · rw [hf2] at hm; exact Or.inl hm
          · rw [hf2] at hm
            rcases List.mem_append.1 hm with hm | hm
            · exact Or.inl hm
            · rcases List.mem_singleton.1 hm with rfl
              exact Or.inr ⟨rfl, h1.1, hnp, h3⟩
        · rw [hf1] at hm
          rcases List.mem_append.1 hm with hm | hm
          · exact Or.inl hm
          · rcases List.mem_singleton.1 hm with rfl
            exact Or.inr ⟨rfl, h1.1, hnp, h3⟩
      · rw [if_neg h3] at hm; exact Or.inl hm

theorem fix_sleep_schedule_origin (events : List Event) (p : Prefs) (today : Nat) :
    ∀ m ∈ (fix_sleep_schedule events p today).modifications,
      ∃ e ∈ events, m.id = e.id ∧ e.locked = false ∧ today ≤ e.start / 1440 ∧
        is_during_sleep e.start p = true := by
  intro m hm
  unfold fix_sleep_schedule at hm
  rcases foldl_mods_origin (fix_sleep_step events p today)
      (fun (l : List Modification) => l)
      (fun (e : Event) (m : Modification) =>
        m.id = e.id ∧ e.locked = false ∧ today ≤ e.start / 1440 ∧
        is_during_sleep e.start p = true)
      (fun st x m2 hm2 => fix_sleep_step_origin events p today st x m2 hm2)
      _ _ m hm with h1 | ⟨x, hx, hP⟩
  · simp at h1
  · exact ⟨x, hx, hP⟩

theorem movable_origin_ne (events : List Event) (today : Nat)
    (hids : (events.map Event.id).Nodup) (bad : Event) (hbad : bad ∈ events)
    (hlp : bad.locked = true ∨ bad.start / 1440 < today) (m : Modification)
    (horig : movable_origin events today m) : m.id ≠ bad.id := by
  intro heq
  obtain ⟨e, he, hid, hl, hp⟩ := horig
  have heb : e = bad := nodup_id_inj events hids e he bad hbad (by rw [← hid, heq])
  rcases hlp with h | h
  · rw [heb, h] at hl
    exact Bool.noConfusion hl
  · rw [heb] at hp
    omega

/-- C1: no optimization policy (smart_optimize_week, consolidate_schedule,
group_deep_work, add_planning_buffer, reduce_meeting_load,
add_recovery_time, fix_sleep_schedule) emits a Modification whose event_id
belongs to a locked event or to an event whose start date precedes today
(event ids are unique, as the database primary key guarantees). -/
theorem optimization_policies_skip_locked_and_past (events : List Event) (p : Prefs)
    (today : Nat) (hids : (events.map Event.id).Nodup) (bad : Event)
    (hbad : bad ∈ events) (hlp : bad.locked = true ∨ bad.start / 1440 < today) :
    (∀ m ∈ (smart_optimize_week events p today).modifications, m.id ≠ bad.id) ∧
    (∀ m ∈ (consolidate_schedule events p today).modifications, m.id ≠ bad.id) ∧
    (∀ m ∈ (group_deep_work events p today).modifications, m.id ≠ bad.id) ∧
    (∀ m ∈ (add_planning_buffer events p today).modifications, m.id ≠ bad.id) ∧
    (∀ m ∈ (reduce_meeting_load events p today).modifications, m.id ≠ bad.id) ∧
    (∀ m ∈ (add_recovery_time events p today).modifications, m.id ≠ bad.id) ∧
    (∀ m ∈ (fix_sleep_schedule events p today).modifications, m.id ≠ bad.id) := by
  refine ⟨?_, ?_, ?_, ?_, ?_, ?_, ?_⟩
  · intro m hm
    exact movable_origin_ne events today hids bad hbad hlp m
      (smart_optimize_week_origin events p today m hm)
  · intro m hm
    exact movable_origin_ne events today hids bad hbad hlp m
      (consolidate_schedule_origin events p today m hm)
  · intro m hm
    obtain ⟨c, n, _, hn, hnl, hnp, _, _, _, hmeq⟩ :=
      group_deep_work_origin events p today m hm
    refine movable_origin_ne events today hids bad hbad hlp m ⟨n, hn, ?_, hnl, hnp⟩
    rw [hmeq]
  · intro m hm
    exact movable_origin_ne events today hids bad hbad hlp m
      (add_planning_buffer_origin events p today m hm)
  · intro m hm
    simp [reduce_meeting_load] at hm
  · intro m hm
    exact movable_origin_ne events today hids bad hbad hlp m
      (add_recovery_time_origin events p today m hm)
  · intro m hm
    obtain ⟨e, he, hid, hl, hp, _⟩ := fix_sleep_schedule_origin events p today m hm
    exact movable_origin_ne events today hids bad hbad hlp m ⟨e, he, hid, hl, hp⟩

/-- Witness for C1 at a concrete input: a locked event (id 5) next to a
movable one (id 6); no policy's modification list ever names id 5. -/
theorem optimization_policies_skip_locked_and_past_witness :
    (∀ m ∈ (smart_optimize_week
        [⟨5, "locked", "medium", "fixed", "Work", 28802040, 28802100, true, none⟩,
         ⟨6, "normal", "medium", "fixed", "Work", 28802160, 28802220, false, none⟩]
        default_prefs 20000).modifications, m.id ≠ 5) ∧
    (∀ m ∈ (consolidate_schedule
        [⟨5, "locked", "medium", "fixed", "Work", 28802040, 28802100, true, none⟩,
         ⟨6, "normal", "medium", "fixed", "Work", 28802160, 28802220, false, none⟩]
        default_prefs 20000).modifications, m.id ≠ 5) ∧
    (∀ m ∈ (group_deep_work
        [⟨5, "locked", "medium", "fixed", "Work", 28802040, 28802100, true, none⟩,
         ⟨6, "normal", "medium", "fixed", "Work", 28802160, 28802220, false, none⟩]
        default_prefs 20000).modifications, m.id ≠ 5) ∧
    (∀ m ∈ (add_planning_buffer
        [⟨5, "locked", "medium", "fixed", "Work", 28802040, 28802100, true, none⟩,
         ⟨6, "normal", "medium", "fixed", "Work", 28802160, 28802220, false, none⟩]
        default_prefs 20000).modifications, m.id ≠ 5) ∧
    (∀ m ∈ (reduce_meeting_load
        [⟨5, "locked", "medium", "fixed", "Work", 28802040, 28802100, true, none⟩,
         ⟨6, "normal", "medium", "fixed", "Work", 28802160, 28802220, false, none⟩]
        default_prefs 20000).modifications, m.id ≠ 5) ∧
    (∀ m ∈ (add_recovery_time
        [⟨5, "locked", "medium", "fixed", "Work", 28802040, 28802100, true, none⟩,
         ⟨6, "normal", "medium", "fixed", "Work", 28802160, 28802220, false, none⟩]
        default_prefs 20000).modifications, m.id ≠ 5) ∧
    (∀ m ∈ (fix_sleep_schedule
        [⟨5, "locked", "medium", "fixed", "Work", 28802040, 28802100, true, none⟩,
         ⟨6, "normal", "medium", "fixed", "Work", 28802160, 28802220, false, none⟩]
        default_prefs 20000).modifications, m.id ≠ 5) :=
  optimization_policies_skip_locked_and_past
    [⟨5, "locked", "medium", "fixed", "Work", 28802040, 28802100, true, none⟩,
     ⟨6, "normal", "medium", "fixed", "Work", 28802160, 28802220, false, none⟩]
    default_prefs 20000 (by decide)
    ⟨5, "locked", "medium", "fixed", "Work", 28802040, 28802100, true, none⟩
    (by decide) (Or.inl rfl)

/-- Counterexample to C5: the event 22:00-23:30 on day 20001 (unlocked,
non-past) INTERSECTS the sleep window 23:00-07:00 (minute 23:00 of that day
lies in both the event span and the sleep window), yet fix_sleep_schedule
produces NO modification, because the policy only triggers on events whose
START lies in the sleep window. -/
theorem sleep_repair_tail_overlap_counterexample :
    (fix_sleep_schedule
        [⟨7, "evening", "medium", "fixed", "Personal", 28802760, 28802850, false, none⟩]
        default_prefs 20000).modifications = [] ∧
    (28802760 : Nat) ≤ 28802820 ∧ (28802820 : Nat) < 28802850 ∧
    is_during_sleep 28802820 default_prefs = true ∧
    (20000 : Nat) ≤ 28802760 / 1440 := by
  refine ⟨by decide, by decide, by decide, by decide, by decide⟩

set_option maxRecDepth 1000000 in
/-- C5 amended: fix_sleep_schedule relocates only non-locked, non-past
events whose START time of day lies in the sleep window (events that merely
extend into it are left alone); in the claim's own example - an event
23:30-00:30 under sleep window 23:00-07:00 on an otherwise free day - the
event is relocated to 14:00-15:00, whose span has zero overlap with the
sleep window. -/
theorem sleep_repair_start_trigger :
    (∀ (events : List Event) (p : Prefs) (today : Nat) (m : Modification),
      m ∈ (fix_sleep_schedule events p today).modifications →
      ∃ e ∈ events, m.id = e.id ∧ e.locked = false ∧ today ≤ e.start / 1440 ∧
        is_during_sleep e.start p = true) ∧
    (fix_sleep_schedule
        [⟨7, "late", "medium", "fixed", "Personal", 28802850, 28802910, false, none⟩]
        default_prefs 20000).modifications =
      [⟨7, 28802850, 28802910, 28802280, 28802340⟩] ∧
    (∀ t < 60, is_during_sleep (28802280 + t) default_prefs = false) := by
  refine ⟨?_, by decide, by decide⟩
  intro events p today m hm
  exact fix_sleep_schedule_origin events p today m hm

set_option maxRecDepth 1000000 in
/-- Witness for the amended C5 theorem: the relocated 23:30-00:30 event's
modification indeed originates from an event starting during sleep. -/
theorem sleep_repair_start_trigger_witness :
    ∃ e ∈ [(⟨7, "late", "medium", "fixed", "Personal", 28802850, 28802910, false,
        none⟩ : Event)],
      (⟨7, 28802850, 28802910, 28802280, 28802340⟩ : Modification).id = e.id ∧
      e.locked = false ∧ 20000 ≤ e.start / 1440 ∧
      is_during_sleep e.start default_prefs = true :=
  sleep_repair_start_trigger.1
    [⟨7, "late", "medium", "fixed", "Personal", 28802850, 28802910, false, none⟩]
    default_prefs 20000 ⟨7, 28802850, 28802910, 28802280, 28802340⟩ (by decide)

/-- C6: group_deep_work shifts a later Work event earlier only when the gap
to the previous one is strictly between 0 and 60 minutes and the combined
duration is under 240 minutes (the shift lands 5 minutes after the earlier
event); consequently two 150-minute Work events separated by a 10-minute
gap (combined 300 >= 240) produce no modification at all. -/
theorem deep_work_merge_bounded :
    (∀ (events : List Event) (p : Prefs) (today : Nat) (m : Modification),
      m ∈ (group_deep_work events p today).modifications →
      ∃ c n : Event, c ∈ events ∧ n ∈ events ∧
        0 < (n.start : ℤ) - c.stop ∧ (n.start : ℤ) - c.stop < 60 ∧
        ((c.stop : ℤ) - c.start) + ((n.stop : ℤ) - n.start) < 240 ∧
        m.id = n.id ∧ m.new_start = c.stop + 5) ∧
    (group_deep_work
        [⟨1, "deep1", "medium", "fixed", "Work", 28802040, 28802190, false, none⟩,
         ⟨2, "deep2", "medium", "fixed", "Work", 28802200, 28802350, false, none⟩]
        default_prefs 20000).modifications = [] := by
  constructor
  · intro events p today m hm
    obtain ⟨c, n, hc, hn, _, _, hg1, hg2, hg3, hmeq⟩ :=
      group_deep_work_origin events p today m hm
    exact ⟨c, n, hc, hn, hg1, hg2, hg3, by rw [hmeq], by rw [hmeq]⟩
  · decide

/-- Witness for C6 at a concrete mergeable input: two 60-minute Work events
30 minutes apart do produce a merge modification, and the theorem recovers
its origin pair and conditions. -/
theorem deep_work_merge_bounded_witness :
    ∃ c n : Event,
      c ∈ [⟨3, "w1", "medium", "fixed", "Work", 28802040, 28802100, false, none⟩,
           ⟨4, "w2", "medium", "fixed", "Work", 28802130, 28802190, false, none⟩] ∧
      n ∈ [⟨3, "w1", "medium", "fixed", "Work", 28802040, 28802100, false, none⟩,
           ⟨4, "w2", "medium", "fixed", "Work", 28802130, 28802190, false, none⟩] ∧
      0 < (n.start : ℤ) - c.stop ∧ (n.start : ℤ) - c.stop < 60 ∧
      ((c.stop : ℤ) - c.start) + ((n.stop : ℤ) - n.start) < 240 ∧
      (⟨4, 28802130, 28802190, 28802105, 28802165⟩ : Modification).id = n.id ∧
      (⟨4, 28802130, 28802190, 28802105, 28802165⟩ : Modification).new_start = c.stop + 5 :=
  deep_work_merge_bounded.1
    [⟨3, "w1", "medium", "fixed", "Work", 28802040, 28802100, false, none⟩,
     ⟨4, "w2", "medium", "fixed", "Work", 28802130, 28802190, false, none⟩]
    default_prefs 20000 ⟨4, 28802130, 28802190, 28802105, 28802165⟩ (by decide)

/-- The C7 scenario: fourteen one-hour unlocked Work events, all originally
on day 20001, in an otherwise empty week. -/
def c7_events : List Event :=
  (List.range 14).map (fun k =>
    ⟨k + 1, "job", "medium", "fixed", "Work", 28801440 + 60 * k, 28801500 + 60 * k,
      false, none⟩)

set_option maxRecDepth 10000000 in
/-- C7: smart_optimize_week places every event it moves on the week day
whose total simulated occupied minutes is minimal at that step (the
modification's new start lies on `week_min_day` of the simulation state);
in particular fourteen one-hour unlocked, non-past events in an otherwise
empty week with work window 09:00-18:00 end up exactly two per day over the
seven week days. -/
theorem workload_balancing_min_day :
    ((List.range 7).map (fun i =>
      ((smart_optimize_week c7_events default_prefs 20000).modifications.filter
        (fun m => m.new_start / 1440 == 20001 + i)).length) = [2, 2, 2, 2, 2, 2, 2]) ∧
    (∀ (p : Prefs) (week_days : List Nat) (st : SimState) (e : Event) (m : Modification),
      p.work_end ≤ 1439 →
      (∀ ps pe, event_pref_window e.preferred_time = some (ps, pe) → pe ≤ 1439) →
      m ∈ (smart_step p week_days st e).mods → m ∉ st.mods →
      m.id = e.id ∧ m.new_start / 1440 = week_min_day st.sim week_days) := by
  constructor
  · decide
  · intro p week_days st e m hwe hpe hm hnot
    unfold smart_step at hm
    simp only [] at hm
    rcases hfind : find_next_available_slot st.sim p (e.stop - e.start)
        (week_min_day st.sim week_days) p.work_start p.work_end (some e.id)
        e.category (event_pref_window e.preferred_time) with _ | ns
    · rw [hfind] at hm
      exact absurd hm hnot
    · rw [hfind] at hm
      simp only [] at hm
      rcases List.mem_append.1 hm with hm | hm
      · exact absurd hm hnot
      · rcases List.mem_singleton.1 hm with rfl
        exact ⟨rfl, find_next_available_slot_on_date st.sim p (e.stop - e.start)
          (week_min_day st.sim week_days) p.work_start p.work_end (some e.id)
          e.category (event_pref_window e.preferred_time) ns hwe hpe hfind⟩

set_option maxRecDepth 1000000 in
/-- Witness for C7's per-step statement at a concrete input: the first
event placed into an empty simulation lands on the (unique) minimum-load
day 20001, at 13:00. -/
theorem workload_balancing_min_day_witness :
    (⟨1, 28801440, 28801500, 28802220, 28802280⟩ : Modification).id =
      (⟨1, "job", "medium", "fixed", "Work", 28801440, 28801500, false, none⟩ : Event).id ∧
    (⟨1, 28801440, 28801500, 28802220, 28802280⟩ : Modification).new_start / 1440 =
      week_min_day [] [20001] :=
  workload_balancing_min_day.2 default_prefs [20001] ⟨[], []⟩
    ⟨1, "job", "medium", "fixed", "Work", 28801440, 28801500, false, none⟩
    ⟨1, 28801440, 28801500, 28802220, 28802280⟩
    (by decide) (fun ps pe h => by simp [event_pref_window] at h)
    (by decide) (by decide)

end Tempora
